import Mathlib

/-!
# NAS navigation catalog (GT-610/nas-nav): ordered catalog of services and categories

A shallow embedding of the Fiber wiring in `src/main.go` together with the data
model of `src/models/*.go`: the catalog handlers, the listings, and the
single-admin login with its session flag.

Modelling conventions.

* The store is a value of type `DB`: one list of rows per table, in insertion
  order.  Every model embeds `gorm.Model`, so a row is never removed physically:
  `db.Delete` sets `deleted_at`, and every query built from a model carries the
  condition `deleted_at IS NULL`.  The column `deleted_at` is the field `Deleted`
  (true when `deleted_at` is set); the rows the handlers can see are the rows with
  `Deleted = false`.  The columns `created_at` and `updated_at` are wall-clock
  timestamps and are not part of the model.
* `ID` is the integer primary key.  An insert takes the successor of the largest
  key present in the table (rows are never removed, so this is also what
  AUTOINCREMENT yields).
* `Name` carries a UNIQUE index (`gorm:"unique"`), which spans all rows of the
  table, soft-deleted ones included.  An insert or update that would violate it
  fails and the handler answers 500.
* `SortOrder` is declared `gorm:"default:999"`: on insert GORM replaces a zero
  value of such a field by its default.
* `SortOrder` is a Go `int` (64 bits); it is modelled in `Int`.  The handlers only
  take the successor of the stored maximum and the predecessor of values that
  exceed another stored value.  The successor is the one place where a Go `int`
  can wrap: `wrapInt64` is the 64-bit result, and it is the successor itself
  exactly when the stored maximum is below `MaxInt64`.  Statements about the
  value `addService` assigns carry that bound.
* A handler takes the store and the decoded request and returns the store after
  the request together with the HTTP status.  A body that `BodyParser` rejects is
  `none`.
* The `:id` path parameter is a string.  `updateService`, `deleteService` and
  `updateCategory` use it only to load a row and then act by the primary key of
  the row they loaded; they take the number the string denotes.
  `deleteCategory` also passes the string to the count of referring services, so
  it takes an `IDParam`, which keeps the case of a string that is not a numeral.
-/

namespace NasNav

/-! ## Data model (`src/models`) -/

/-- Row of the table `categories` (`models.Category`). -/
structure Category where
  ID : Nat
  Name : String
  Deleted : Bool
deriving DecidableEq, Repr

/-- Row of the table `services` (`models.Service`). -/
structure Service where
  ID : Nat
  Name : String
  CategoryID : Nat
  IPURL : String
  DomainURL : String
  Description : String
  Icon : String
  SortOrder : Int
  Deleted : Bool
deriving DecidableEq, Repr

/-- Row of the table `auths` (`models.Auth`). -/
structure Auth where
  ID : Nat
  PasswordHash : String
  Deleted : Bool
deriving DecidableEq, Repr

/-- The database behind the global handle `db`. -/
structure DB where
  categories : List Category
  services : List Service
  auths : List Auth
deriving DecidableEq, Repr

/-! ## HTTP status codes used by the handlers -/

abbrev StatusOK : Nat := 200
abbrev StatusCreated : Nat := 201
abbrev StatusBadRequest : Nat := 400
abbrev StatusUnauthorized : Nat := 401
abbrev StatusForbidden : Nat := 403
abbrev StatusNotFound : Nat := 404
abbrev StatusConflict : Nat := 409
abbrev StatusInternalServerError : Nat := 500

/-! ## Queries -/

/-- Rows of `services` with `deleted_at IS NULL`. -/
def DB.liveServices (db : DB) : List Service :=
  db.services.filter (fun s => !s.Deleted)

/-- Rows of `categories` with `deleted_at IS NULL`. -/
def DB.liveCategories (db : DB) : List Category :=
  db.categories.filter (fun c => !c.Deleted)

/-- `db.First(&service, id)`. -/
def DB.firstService (db : DB) (id : Nat) : Option Service :=
  db.liveServices.find? (fun s => s.ID == id)

/-- `db.First(&category, id)`. -/
def DB.firstCategory (db : DB) (id : Nat) : Option Category :=
  db.liveCategories.find? (fun c => c.ID == id)

/-- `db.Where("name = ?", name).First(&existingService)`. -/
def DB.firstServiceByName (db : DB) (name : String) : Option Service :=
  db.liveServices.find? (fun s => s.Name == name)

/-- `db.Where("name = ? AND id != ?", name, id).First(&existingService)`. -/
def DB.firstOtherServiceByName (db : DB) (name : String) (id : Nat) : Option Service :=
  db.liveServices.find? (fun s => s.Name == name && s.ID != id)

/-- `db.Where("name = ?", name).First(&existingCategory)`. -/
def DB.firstCategoryByName (db : DB) (name : String) : Option Category :=
  db.liveCategories.find? (fun c => c.Name == name)

/-- `db.Where("name = ? AND id != ?", name, id).First(&existingCategory)`. -/
def DB.firstOtherCategoryByName (db : DB) (name : String) (id : Nat) : Option Category :=
  db.liveCategories.find? (fun c => c.Name == name && c.ID != id)

/-- SQL `MAX` over a column: `none` (NULL) when there is no row. -/
def maxOf : List Int → Option Int
  | [] => none
  | x :: xs => some (xs.foldl max x)

/-- The `sort_order` column of the visible services. -/
def DB.sortOrders (db : DB) : List Int :=
  db.liveServices.map (fun s => s.SortOrder)

/-- `db.Model(&models.Service{}).Select("MAX(sort_order)")`. -/
def DB.maxSortOrder (db : DB) : Option Int :=
  maxOf db.sortOrders

/-- `db.Model(&models.Service{}).Where("category_id = ?", id).Count(&serviceCount)`. -/
def DB.countServicesOfCategory (db : DB) (categoryID : Nat) : Nat :=
  (db.liveServices.filter (fun s => s.CategoryID == categoryID)).length

/-! ## Writes -/

/-- Next primary key of a table whose keys are `ids`. -/
def nextID (ids : List Nat) : Nat :=
  ids.foldl max 0 + 1

/-- `db.Create(&service)`: the zero `SortOrder` is replaced by the column default
999, the row receives a fresh primary key, and the insert fails (`none`) when the
UNIQUE index on `name` is violated. -/
def DB.createService (db : DB) (service : Service) : Option DB :=
  if db.services.any (fun t => t.Name == service.Name) then none
  else
    let row : Service :=
      { service with
        ID := nextID (db.services.map (fun t => t.ID))
        SortOrder := if service.SortOrder = 0 then 999 else service.SortOrder
        Deleted := false }
    some { db with services := db.services ++ [row] }

/-- `db.Save(&service)` for a row loaded by `First`: all columns of the visible row
with that primary key are written; fails (`none`) when the UNIQUE index on `name`
is violated. -/
def DB.saveService (db : DB) (service : Service) : Option DB :=
  if db.services.any (fun t => t.ID != service.ID && t.Name == service.Name) then none
  else
    some { db with
      services := db.services.map
        (fun t => if t.ID = service.ID ∧ t.Deleted = false then service else t) }

/-- `tx.Delete(&service)`: soft delete of the visible row with that primary key. -/
def DB.softDeleteService (db : DB) (id : Nat) : DB :=
  { db with
    services := db.services.map
      (fun t => if t.ID = id ∧ t.Deleted = false then { t with Deleted := true } else t) }

/-- `tx.Model(&models.Service{}).Where("sort_order > ?", deletedOrder)
.Update("sort_order", gorm.Expr("sort_order - 1"))`. -/
def DB.shiftSortOrderAbove (db : DB) (deletedOrder : Int) : DB :=
  { db with
    services := db.services.map
      (fun t => if t.Deleted = false ∧ t.SortOrder > deletedOrder
                then { t with SortOrder := t.SortOrder - 1 } else t) }

/-- `tx.Model(&models.Service{}).Where("id = ?", serviceID).Update("sort_order", order)`:
a statement that matches no row is not an error. -/
def DB.updateSortOrder (db : DB) (serviceID : Nat) (order : Int) : DB :=
  { db with
    services := db.services.map
      (fun t => if t.ID = serviceID ∧ t.Deleted = false
                then { t with SortOrder := order } else t) }

/-- `db.Create(&category)`. -/
def DB.createCategory (db : DB) (name : String) : Option DB :=
  if db.categories.any (fun c => c.Name == name) then none
  else
    let row : Category :=
      { ID := nextID (db.categories.map (fun c => c.ID)), Name := name, Deleted := false }
    some { db with categories := db.categories ++ [row] }

/-- `db.Save(&category)` for a row loaded by `First`. -/
def DB.saveCategory (db : DB) (category : Category) : Option DB :=
  if db.categories.any (fun c => c.ID != category.ID && c.Name == category.Name) then none
  else
    some { db with
      categories := db.categories.map
        (fun c => if c.ID = category.ID ∧ c.Deleted = false then category else c) }

/-- `db.Delete(&category)`: soft delete of the visible row with that primary key. -/
def DB.softDeleteCategory (db : DB) (id : Nat) : DB :=
  { db with
    categories := db.categories.map
      (fun c => if c.ID = id ∧ c.Deleted = false then { c with Deleted := true } else c) }

/-! ## Handlers of the Fiber wiring (`src/main.go`) -/

/-- Decoded body of `POST /api/services` and `PUT /api/services/:id`. -/
structure ServiceInput where
  Name : String
  IPURL : String
  DomainURL : String
  CategoryID : Nat
  Description : String
  Icon : String
deriving DecidableEq, Repr

/-- Decoded body of `POST /api/categories` and `PUT /api/categories/:id`. -/
structure CategoryInput where
  Name : String
deriving DecidableEq, Repr

/-- Largest value of a Go `int` on a 64-bit platform. -/
def MaxInt64 : Int := 9223372036854775807

/-- The value a 64-bit Go `int` holds when the exact result is `x`
(two's complement wraparound). -/
def wrapInt64 (x : Int) : Int :=
  (x + 9223372036854775808) % 18446744073709551616 - 9223372036854775808

/-- Handler `addService`.  `maxOrder + 1` is computed in `Int`; it is the value
the Go addition yields when `maxOrder < MaxInt64`. -/
def addService (db : DB) (body : Option ServiceInput) : DB × Nat :=
  match body with
  | none => (db, StatusBadRequest)
  | some serviceInput =>
    if serviceInput.Name = "" ∨ serviceInput.IPURL = "" ∨ serviceInput.DomainURL = ""
        ∨ serviceInput.CategoryID = 0 then
      (db, StatusBadRequest)
    else
      match db.firstCategory serviceInput.CategoryID with
      | none => (db, StatusBadRequest)
      | some _ =>
        match db.firstServiceByName serviceInput.Name with
        | some _ => (db, StatusConflict)
        | none =>
          let maxOrder : Int := db.maxSortOrder.getD 0
          let service : Service :=
            { ID := 0
              Name := serviceInput.Name
              IPURL := serviceInput.IPURL
              DomainURL := serviceInput.DomainURL
              CategoryID := serviceInput.CategoryID
              Description := serviceInput.Description
              Icon := serviceInput.Icon
              SortOrder := maxOrder + 1
              Deleted := false }
          match db.createService service with
          | none => (db, StatusInternalServerError)
          | some db' => (db', StatusCreated)

/-- Tail of `updateService` (`// 更新其他字段` to the end): the four remaining
fields are assigned when the input value is not empty, then the row is saved. -/
def updateServiceFields (db : DB) (service : Service) (serviceInput : ServiceInput) :
    DB × Nat :=
  let service : Service :=
    if serviceInput.IPURL ≠ "" then { service with IPURL := serviceInput.IPURL } else service
  let service : Service :=
    if serviceInput.DomainURL ≠ "" then { service with DomainURL := serviceInput.DomainURL }
    else service
  let service : Service :=
    if serviceInput.Description ≠ "" then
      { service with Description := serviceInput.Description }
    else service
  let service : Service :=
    if serviceInput.Icon ≠ "" then { service with Icon := serviceInput.Icon } else service
  match db.saveService service with
  | none => (db, StatusInternalServerError)
  | some db' => (db', StatusOK)

/-- Middle of `updateService` (`// 如果更新了分类，检查分类是否存在`): a changed
`category_id` must resolve to a category. -/
def updateServiceCategory (db : DB) (service : Service) (serviceInput : ServiceInput) :
    DB × Nat :=
  if serviceInput.CategoryID > 0 ∧ serviceInput.CategoryID ≠ service.CategoryID then
    match db.firstCategory serviceInput.CategoryID with
    | none => (db, StatusBadRequest)
    | some _ =>
      updateServiceFields db { service with CategoryID := serviceInput.CategoryID } serviceInput
  else updateServiceFields db service serviceInput

/-- Handler `updateService`. -/
def updateService (db : DB) (serviceID : Nat) (body : Option ServiceInput) : DB × Nat :=
  match db.firstService serviceID with
  | none => (db, StatusNotFound)
  | some service =>
    match body with
    | none => (db, StatusBadRequest)
    | some serviceInput =>
      if serviceInput.Name ≠ "" ∧ serviceInput.Name ≠ service.Name then
        match db.firstOtherServiceByName serviceInput.Name service.ID with
        | some _ => (db, StatusConflict)
        | none => updateServiceCategory db { service with Name := serviceInput.Name } serviceInput
      else updateServiceCategory db service serviceInput

/-- Handler `deleteService`: the soft delete and the shift run in one transaction. -/
def deleteService (db : DB) (serviceID : Nat) : DB × Nat :=
  match db.firstService serviceID with
  | none => (db, StatusNotFound)
  | some service =>
    let deletedOrder := service.SortOrder
    let tx := db.softDeleteService service.ID
    let tx := tx.shiftSortOrderAbove deletedOrder
    (tx, StatusOK)

/-- Loop of `reorderServices`: `for index, serviceID := range newOrder`, one
`UPDATE ... SET sort_order = index+1 WHERE id = serviceID` per element. -/
def reorderLoop (tx : DB) (index : Nat) : List Nat → DB
  | [] => tx
  | serviceID :: rest =>
    reorderLoop (tx.updateSortOrder serviceID ((index : Int) + 1)) (index + 1) rest

/-- Handler `reorderServices`. -/
def reorderServices (db : DB) (body : Option (List Nat)) : DB × Nat :=
  match body with
  | none => (db, StatusBadRequest)
  | some newOrder => (reorderLoop db 0 newOrder, StatusOK)

/-- Handler `addCategory`. -/
def addCategory (db : DB) (body : Option CategoryInput) : DB × Nat :=
  match body with
  | none => (db, StatusBadRequest)
  | some categoryInput =>
    if categoryInput.Name = "" then (db, StatusBadRequest)
    else
      match db.firstCategoryByName categoryInput.Name with
      | some _ => (db, StatusConflict)
      | none =>
        match db.createCategory categoryInput.Name with
        | none => (db, StatusInternalServerError)
        | some db' => (db', StatusCreated)

/-- Handler `updateCategory`. -/
def updateCategory (db : DB) (categoryID : Nat) (body : Option CategoryInput) : DB × Nat :=
  match db.firstCategory categoryID with
  | none => (db, StatusNotFound)
  | some category =>
    match body with
    | none => (db, StatusBadRequest)
    | some categoryInput =>
      if categoryInput.Name = "" then (db, StatusBadRequest)
      else
        match db.firstOtherCategoryByName categoryInput.Name category.ID with
        | some _ => (db, StatusConflict)
        | none =>
          match db.saveCategory { category with Name := categoryInput.Name } with
          | none => (db, StatusInternalServerError)
          | some db' => (db', StatusOK)

/-- The `:id` path parameter of `DELETE /api/categories/:id`, by what GORM and
SQLite make of it.  The handler hands the raw string both to
`db.First(&category, categoryID)` and to `Where("category_id = ?", categoryID)`.

* `numeral id`: the string is a decimal numeral.  `First` looks the primary key
  up, and the count compares `category_id` with the number.
* `text holds equalsInt`: any other string.  GORM uses it verbatim as the WHERE
  clause of `First`; `holds db row` tells whether that clause, together with the
  soft-delete condition GORM appends, selects `row` in the store `db` (it selects
  nothing when the text is not a valid condition).  In the count the string is
  bound as a value, and `equalsInt n` tells whether SQLite finds it equal to the
  integer `n`. -/
inductive IDParam where
  | numeral (id : Nat)
  | text (holds : DB → Category → Bool) (equalsInt : Nat → Bool)

/-- First row of `categories` in primary-key order. -/
def firstCategoryRow : List Category → Option Category
  | [] => none
  | c :: rest => some (rest.foldl (fun first d => if d.ID < first.ID then d else first) c)

/-- `db.First(&category, categoryID)` with the raw path string. -/
def DB.firstCategoryByParam (db : DB) : IDParam → Option Category
  | .numeral id => db.firstCategory id
  | .text holds _ => firstCategoryRow (db.categories.filter (holds db))

/-- `db.Model(&models.Service{}).Where("category_id = ?", categoryID).Count(...)`
with the raw path string. -/
def DB.countServicesByParam (db : DB) : IDParam → Nat
  | .numeral id => db.countServicesOfCategory id
  | .text _ equalsInt => (db.liveServices.filter (fun s => equalsInt s.CategoryID)).length

/-- Handler `deleteCategory`: the lookup and the reference count both take the
path string, the delete takes the row that was loaded. -/
def deleteCategory (db : DB) (categoryID : IDParam) : DB × Nat :=
  match db.firstCategoryByParam categoryID with
  | none => (db, StatusNotFound)
  | some category =>
    if db.countServicesByParam categoryID > 0 then (db, StatusConflict)
    else (db.softDeleteCategory category.ID, StatusOK)

/-- One admin request of the Fiber wiring, as routed by `setupRouter`.  The
handlers `updateService`, `deleteService` and `updateCategory` use their `:id`
only to load a row and then work with the `ID` of that row: the parameter is the
number of the row it resolves.  `deleteCategory` uses the string a second time,
so it keeps the parameter as it is. -/
inductive Request where
  | addService (body : Option ServiceInput)
  | updateService (serviceID : Nat) (body : Option ServiceInput)
  | deleteService (serviceID : Nat)
  | reorderServices (body : Option (List Nat))
  | addCategory (body : Option CategoryInput)
  | updateCategory (categoryID : Nat) (body : Option CategoryInput)
  | deleteCategory (categoryID : IDParam)

/-- Dispatch of a request to its handler. -/
def handle (db : DB) : Request → DB × Nat
  | .addService body => addService db body
  | .updateService serviceID body => updateService db serviceID body
  | .deleteService serviceID => deleteService db serviceID
  | .reorderServices body => reorderServices db body
  | .addCategory body => addCategory db body
  | .updateCategory categoryID body => updateCategory db categoryID body
  | .deleteCategory categoryID => deleteCategory db categoryID

/-- The store after a sequence of requests handled one at a time. -/
def run (db : DB) (reqs : List Request) : DB :=
  reqs.foldl (fun d r => (handle d r).1) db

/-- The functions of `bcrypt` used by the handlers.  `CompareHashAndPassword hash
password` is `true` when the Go function returns a nil error;
`GenerateFromPassword password` is `none` when the Go function returns an error. -/
structure Bcrypt where
  CompareHashAndPassword : String → String → Bool
  GenerateFromPassword : String → Option String

/-- Session store: session id to the value under `"authenticated"`. -/
abbrev Sessions := Nat → Option Bool

/-- `sess.Set("authenticated", value); sess.Save()` for the session `sid`. -/
def setAuthenticated (sessions : Sessions) (sid : Nat) (value : Bool) : Sessions :=
  fun other => if other = sid then some value else sessions other

/-- Everything the handlers can read or write: the database and the session
store. -/
structure State where
  db : DB
  sessions : Sessions

/-- Rows of `auths` with `deleted_at IS NULL`. -/
def DB.liveAuths (db : DB) : List Auth :=
  db.auths.filter (fun a => !a.Deleted)

/-- First row in primary-key order. -/
def firstByID : List Auth → Option Auth
  | [] => none
  | a :: rest => some (rest.foldl (fun first b => if b.ID < first.ID then b else first) a)

/-- `db.First(&auth)`: the visible row with the smallest primary key. -/
def DB.firstAuth (db : DB) : Option Auth :=
  firstByID db.liveAuths

/-- `db.Save(&auth)` for a row loaded by `First`. -/
def DB.saveAuth (db : DB) (auth : Auth) : DB :=
  { db with
    auths := db.auths.map (fun a => if a.ID = auth.ID ∧ a.Deleted = false then auth else a) }

/-- Middleware `authMiddleware` for the caller with session `sid`: `none` when
the request is passed on (`c.Next()`), `some 403` when it is rejected. -/
def authMiddleware (sessions : Sessions) (sid : Nat) : Option Nat :=
  if sessions sid ≠ some true then some StatusForbidden else none

/-- Decoded body of `POST /api/auth/login`. -/
structure LoginInput where
  Password : String
deriving DecidableEq, Repr

/-- Decoded body of `POST /api/auth/change-password`. -/
structure PasswordInput where
  OldPassword : String
  NewPassword : String
deriving DecidableEq, Repr

/-- Handler `adminLogin` for the caller with session `sid`. -/
def adminLogin (bcrypt : Bcrypt) (st : State) (sid : Nat) (body : Option LoginInput) :
    State × Nat :=
  match body with
  | none => (st, StatusBadRequest)
  | some loginInput =>
    if loginInput.Password = "" then (st, StatusBadRequest)
    else
      match st.db.firstAuth with
      | none => (st, StatusUnauthorized)
      | some auth =>
        if bcrypt.CompareHashAndPassword auth.PasswordHash loginInput.Password = false then
          (st, StatusUnauthorized)
        else
          ({ st with sessions := setAuthenticated st.sessions sid true }, StatusOK)

/-- Handler `adminLogout` for the caller with session `sid`. -/
def adminLogout (st : State) (sid : Nat) : State × Nat :=
  ({ st with sessions := setAuthenticated st.sessions sid false }, StatusOK)

/-- Go `len(s)`: the number of bytes of the UTF-8 encoding. -/
def len (s : String) : Nat :=
  s.utf8ByteSize

/-- First loop flag of `changePassword`: some rune lies in `'A'..'Z'`. -/
def hasUpperCase (s : String) : Bool :=
  s.toList.any (fun char => decide ('A'.toNat ≤ char.toNat) && decide (char.toNat ≤ 'Z'.toNat))

/-- Second loop flag of `changePassword`: some rune lies in `'0'..'9'`. -/
def hasDigit (s : String) : Bool :=
  s.toList.any (fun char => decide ('0'.toNat ≤ char.toNat) && decide (char.toNat ≤ '9'.toNat))

/-- Handler `changePassword` for the caller with session `sid`. -/
def changePassword (bcrypt : Bcrypt) (st : State) (sid : Nat)
    (body : Option PasswordInput) : State × Nat :=
  match body with
  | none => (st, StatusBadRequest)
  | some passwordInput =>
    if passwordInput.OldPassword = "" ∨ passwordInput.NewPassword = "" then
      (st, StatusBadRequest)
    else if len passwordInput.NewPassword < 8 then (st, StatusBadRequest)
    else if hasUpperCase passwordInput.NewPassword = false then (st, StatusBadRequest)
    else if hasDigit passwordInput.NewPassword = false then (st, StatusBadRequest)
    else
      match st.db.firstAuth with
      | none => (st, StatusInternalServerError)
      | some auth =>
        if bcrypt.CompareHashAndPassword auth.PasswordHash passwordInput.OldPassword = false
        then (st, StatusUnauthorized)
        else
          match bcrypt.GenerateFromPassword passwordInput.NewPassword with
          | none => (st, StatusInternalServerError)
          | some newPasswordHash =>
            ({ db := st.db.saveAuth { auth with PasswordHash := newPasswordHash }
               sessions := setAuthenticated st.sessions sid false }, StatusOK)

/-! ## Listings (`src/main.go`)

The handlers ask the database for `ORDER BY sort_order` and `ORDER BY id`.  The
database engine is not part of the repository.  `Engine` holds what an engine
does with the two clauses and `Engine.Sound` is the contract of `ORDER BY`: the
same rows, sorted by the requested column.  `sqliteEngine` is the engine the
handlers run on (`gorm.io/driver/sqlite`): SQLite reads the visible rows in
primary-key order, from the table or from the index on `deleted_at`, and its
sort keeps rows with equal keys in the order they were read. -/

/-- The two `ORDER BY` clauses the handlers use. -/
structure Engine where
  orderBySortOrder : List Service → List Service
  orderByID : List Category → List Category

/-- `ORDER BY` returns the same rows, in ascending order of the column. -/
def Engine.Sound (e : Engine) : Prop :=
  (∀ rows, (e.orderBySortOrder rows).Perm rows ∧
    (e.orderBySortOrder rows).Pairwise (fun a b => a.SortOrder ≤ b.SortOrder)) ∧
  (∀ rows, (e.orderByID rows).Perm rows ∧
    (e.orderByID rows).Pairwise (fun a b => a.ID ≤ b.ID))

/-- The engine behind `db`: rows sorted by the requested column, rows with equal
`sort_order` in ascending primary key. -/
def sqliteEngine : Engine :=
  { orderBySortOrder := fun rows =>
      rows.insertionSort
        (fun a b => a.SortOrder < b.SortOrder ∨ (a.SortOrder = b.SortOrder ∧ a.ID ≤ b.ID))
    orderByID := fun rows => rows.insertionSort (fun a b => a.ID ≤ b.ID) }

/-- `Preload("Category")`: the visible category the service refers to, the zero
value when `category_id` is 0 or no visible category has that `ID`. -/
def preloadCategory (db : DB) (s : Service) : Category :=
  if s.CategoryID = 0 then { ID := 0, Name := "", Deleted := false }
  else (db.firstCategory s.CategoryID).getD { ID := 0, Name := "", Deleted := false }

/-- One element of the answer of `getServices`. -/
structure ServiceItem where
  id : Nat
  name : String
  ip_url : String
  domain_url : String
  category_id : Nat
  category : String
  sort_order : Int
  description : String
  icon : String
deriving DecidableEq, Repr

/-- One element of the answer of `getPublicServices`. -/
structure PublicServiceItem where
  name : String
  category : String
  ip_url : String
  domain_url : String
  description : String
  icon_url : String
deriving DecidableEq, Repr

/-- One element of the answer of `getCategories`. -/
structure CategoryItem where
  id : Nat
  name : String
deriving DecidableEq, Repr

/-- Body of the loop of `getServices`. -/
def serviceItem (db : DB) (s : Service) : ServiceItem :=
  { id := s.ID
    name := s.Name
    ip_url := s.IPURL
    domain_url := s.DomainURL
    category_id := s.CategoryID
    category := (preloadCategory db s).Name
    sort_order := s.SortOrder
    description := s.Description
    icon := s.Icon }

/-- Body of the loop of `getPublicServices`. -/
def publicServiceItem (db : DB) (s : Service) : PublicServiceItem :=
  { name := s.Name
    category := if (preloadCategory db s).ID > 0 then (preloadCategory db s).Name else "未分类"
    ip_url := s.IPURL
    domain_url := s.DomainURL
    description := s.Description
    icon_url := s.Icon }

/-- Handler `getServices`. -/
def getServices (e : Engine) (db : DB) : List ServiceItem × Nat :=
  ((e.orderBySortOrder db.liveServices).map (serviceItem db), StatusOK)

/-- Handler `getPublicServices`. -/
def getPublicServices (e : Engine) (db : DB) : List PublicServiceItem × Nat :=
  ((e.orderBySortOrder db.liveServices).map (publicServiceItem db), StatusOK)

/-- Handler `getCategories`. -/
def getCategories (e : Engine) (db : DB) : List CategoryItem × Nat :=
  ((e.orderByID db.liveCategories).map (fun category =>
    { id := category.ID, name := category.Name }), StatusOK)

/-! ## Concrete stores and requests used to exercise the theorems -/

/-- The store after first-run bootstrap, without the credential row: the default
category and no service. -/
def seedDB : DB :=
  { categories := [{ ID := 1, Name := "Default", Deleted := false }]
    services := []
    auths := [] }

/-- Body of a valid `POST /api/services` for a service called `name`. -/
def serviceBody (name : String) : Option ServiceInput :=
  some { Name := name, IPURL := "http://10.0.0.2", DomainURL := "http://nas.example",
         CategoryID := 1, Description := "", Icon := "" }

/-- Scenario A of the specification: services A, B, C created in that order. -/
def abcDB : DB :=
  run seedDB [.addService (serviceBody "A"), .addService (serviceBody "B"),
    .addService (serviceBody "C")]

/-- Scenario A with a second category. -/
def twoCategoriesDB : DB :=
  (addCategory abcDB (some { Name := "Media" })).1

/-- A complete request body for a service called `A`. -/
def inputA : ServiceInput :=
  { Name := "A", IPURL := "http://10.0.0.2", DomainURL := "http://nas.example",
    CategoryID := 1, Description := "", Icon := "" }

/-- The request body `inputA` with an empty `ip_url`. -/
def inputWithoutIP : ServiceInput :=
  { inputA with IPURL := "" }

/-- The request body `inputA` with a `category_id` that no category carries. -/
def inputUnknownCategory : ServiceInput :=
  { inputA with CategoryID := 7 }

/-- The row of service B in scenario A. -/
def rowB : Service :=
  { ID := 2, Name := "B", CategoryID := 1, IPURL := "http://10.0.0.2",
    DomainURL := "http://nas.example", Description := "", Icon := "",
    SortOrder := 2, Deleted := false }

/-- A partial update: only `domain_url` and `description` are supplied. -/
def patchInput : ServiceInput :=
  { Name := "", IPURL := "", DomainURL := "http://b.example", CategoryID := 0,
    Description := "backup", Icon := "" }

/-- A stand-in for bcrypt in the examples: the hash of a password is the password
behind a fixed marker, and a hash verifies the password it was made from. -/
def markerBcrypt : Bcrypt :=
  { CompareHashAndPassword := fun hash password => hash == "$2a$10$" ++ password
    GenerateFromPassword := fun password => some ("$2a$10$" ++ password) }

/-- The store after first-run bootstrap: the default category, no service and
the credential row for the default password `admin`. -/
def bootDB : DB :=
  { seedDB with auths := [{ ID := 1, PasswordHash := "$2a$10$admin", Deleted := false }] }

/-- No session is authenticated. -/
def noSessions : Sessions :=
  fun _ => none

/-- Sessions 1 and 2 are authenticated. -/
def twoAdmins : Sessions :=
  setAuthenticated (setAuthenticated noSessions 1 true) 2 true

/-- A password of seven characters whose UTF-8 encoding has eight bytes. -/
def sevenCharacters : String :=
  "Abcde1é"

/-- The state after bootstrap in which the sessions 1 and 2 are logged in. -/
def twoAdminsState : State :=
  { db := bootDB, sessions := twoAdmins }

/-- Scenario A after `reorderServices [3]`: services 1 and 3 share `sort_order` 1. -/
def tiedDB : DB :=
  (reorderServices abcDB (some [3])).1

/-- The path string `id`, as in `DELETE /api/categories/id`.  As a WHERE clause
the column name `id` is true of every row whose key is not 0; as a bound value the
string `id` is equal to no integer. -/
def idText : IDParam :=
  .text (fun _ row => row.ID != 0 && !row.Deleted) (fun _ => false)

/-! ## Specification predicates -/

/-- The list `[1, 2, ..., n]`. -/
def oneTo (n : Nat) : List Int :=
  (List.range n).map (fun (i : Nat) => (i : Int) + 1)

/-- What the shift of `deleteService` does to one visible row: `sort_order - 1`
when `sort_order > deletedOrder`, the row as it is otherwise. -/
def shiftRow (deletedOrder : Int) (t : Service) : Service :=
  if t.SortOrder > deletedOrder then { t with SortOrder := t.SortOrder - 1 } else t

/-- The row `updateService` hands to `db.Save`, in closed form: a non-empty string
field or a non-zero `category_id` of the input replaces the stored value, every
other column keeps the stored value. -/
def mergedService (service : Service) (input : ServiceInput) : Service :=
  { ID := service.ID
    Name := if input.Name = "" then service.Name else input.Name
    CategoryID := if input.CategoryID = 0 then service.CategoryID else input.CategoryID
    IPURL := if input.IPURL = "" then service.IPURL else input.IPURL
    DomainURL := if input.DomainURL = "" then service.DomainURL else input.DomainURL
    Description := if input.Description = "" then service.Description else input.Description
    Icon := if input.Icon = "" then service.Icon else input.Icon
    SortOrder := service.SortOrder
    Deleted := service.Deleted }

/-- What the loop of `reorderServices` does to one row: each element of the list,
in turn, overwrites `sort_order` of the visible row with that `ID`. -/
def reorderRow (t : Service) (index : Nat) : List Nat → Service
  | [] => t
  | serviceID :: rest =>
    reorderRow
      (if t.ID = serviceID ∧ t.Deleted = false then { t with SortOrder := (index : Int) + 1 }
       else t)
      (index + 1) rest

/-- The password policy as `changePassword` checks it: at least 8 bytes, a rune in
`'A'..'Z'` and a rune in `'0'..'9'`. -/
def PolicyOK (new : String) : Prop :=
  8 ≤ len new ∧ hasUpperCase new = true ∧ hasDigit new = true

instance (new : String) : Decidable (PolicyOK new) := by
  unfold PolicyOK; infer_instance

/-- Dense ordering: the `sort_order` values of the visible services are a
rearrangement of `1..N`, `N` the number of visible services. -/
def DB.Dense (db : DB) : Prop :=
  db.sortOrders.Perm (oneTo db.liveServices.length)

instance (db : DB) : Decidable db.Dense := by
  unfold DB.Dense; infer_instance

/-- Storage-level PRIMARY KEY constraint: no two rows of a table share an `ID`. -/
def DB.WF (db : DB) : Prop :=
  (db.services.map (fun s => s.ID)).Nodup ∧ (db.categories.map (fun c => c.ID)).Nodup

instance (db : DB) : Decidable db.WF := by
  unfold DB.WF; infer_instance

/-- Referential integrity: every visible service refers to a visible category. -/
def DB.RefOK (db : DB) : Prop :=
  ∀ s ∈ db.liveServices, ∃ c ∈ db.liveCategories, c.ID = s.CategoryID

/-- Name uniqueness among the visible rows of both tables. -/
def DB.NamesUnique (db : DB) : Prop :=
  (db.liveServices.map (fun s => s.Name)).Nodup ∧
  (db.liveCategories.map (fun c => c.Name)).Nodup

instance (db : DB) : Decidable db.RefOK := by
  unfold DB.RefOK; infer_instance

instance (db : DB) : Decidable db.NamesUnique := by
  unfold DB.NamesUnique; infer_instance

/-! ## Auxiliary facts about lists of positions -/

theorem mem_oneTo (n : Nat) (k : Int) : k ∈ oneTo n ↔ 1 ≤ k ∧ k ≤ n := by
  unfold oneTo
  simp only [List.mem_map, List.mem_range]
  constructor
  · rintro ⟨i, hi, rfl⟩
    omega
  · rintro ⟨h1, h2⟩
    refine ⟨(k - 1).toNat, ?_, ?_⟩ <;> omega

theorem nodup_oneTo (n : Nat) : (oneTo n).Nodup := by
  unfold oneTo
  refine List.Nodup.map ?_ (List.nodup_range n)
  intro a b h
  simp only at h
  omega

theorem length_oneTo (n : Nat) : (oneTo n).length = n := by
  simp [oneTo]

/-- A duplicate-free list whose members are exactly `1..m` is a rearrangement of
`1..length`. -/
theorem perm_oneTo_of_mem_iff (l : List Int) (m : Nat) (hn : l.Nodup)
    (hm : ∀ k, k ∈ l ↔ 1 ≤ k ∧ k ≤ (m : Int)) : l.Perm (oneTo l.length) := by
  have hp : l.Perm (oneTo m) :=
    (List.perm_ext_iff_of_nodup hn (nodup_oneTo m)).2
      (fun k => by rw [hm k, mem_oneTo])
  have hl : l.length = m := by rw [hp.length_eq, length_oneTo]
  rw [hl]
  exact hp

theorem foldl_max_spec {α : Type} [LinearOrder α] (xs : List α) (x : α) :
    (xs.foldl max x ∈ x :: xs) ∧ ∀ y ∈ x :: xs, y ≤ xs.foldl max x := by
  induction xs generalizing x with
  | nil => simp
  | cons a as ih =>
    obtain ⟨h1, h2⟩ := ih (max x a)
    simp only [List.foldl_cons]
    refine ⟨?_, ?_⟩
    · rcases List.mem_cons.1 h1 with h | h
      · rw [h]
        rcases max_choice x a with hc | hc <;> rw [hc] <;> simp
      · exact List.mem_cons_of_mem _ (List.mem_cons_of_mem _ h)
    · intro y hy
      rcases List.mem_cons.1 hy with h | h
      · have := h2 (max x a) (List.mem_cons_self _ _)
        rw [h]
        exact le_trans (le_max_left x a) this
      · rcases List.mem_cons.1 h with h | h
        · have := h2 (max x a) (List.mem_cons_self _ _)
          rw [h]
          exact le_trans (le_max_right x a) this
        · exact h2 y (List.mem_cons_of_mem _ h)

theorem lt_nextID (ids : List Nat) (i : Nat) (h : i ∈ ids) : i < nextID ids := by
  unfold nextID
  have := (foldl_max_spec ids 0).2 i (List.mem_cons_of_mem _ h)
  omega

theorem nextID_not_mem (ids : List Nat) : nextID ids ∉ ids :=
  fun h => lt_irrefl _ (lt_nextID ids _ h)

theorem maxOf_nil_iff (l : List Int) : maxOf l = none ↔ l = [] := by
  cases l <;> simp [maxOf]

theorem maxOf_spec (l : List Int) (m : Int) (h : maxOf l = some m) :
    m ∈ l ∧ ∀ y ∈ l, y ≤ m := by
  cases l with
  | nil => simp [maxOf] at h
  | cons x xs =>
    simp only [maxOf, Option.some.injEq] at h
    rw [← h]
    exact foldl_max_spec xs x

/-! ## Visible rows after each write -/

theorem liveServices_append (l : List Service) (row : Service) (h : row.Deleted = false) :
    (l ++ [row]).filter (fun s => !s.Deleted) = l.filter (fun s => !s.Deleted) ++ [row] := by
  simp [List.filter_append, h]

/-- Every way `addService` can end: either nothing is written and the status is
not 201, or one row is appended. -/
theorem addService_cases (db : DB) (body : Option ServiceInput) :
    ((addService db body).1 = db ∧ (addService db body).2 ≠ StatusCreated ∧
      (addService db body).2 ≠ StatusOK) ∨
    ∃ input : ServiceInput, body = some input ∧
      input.Name ≠ "" ∧ input.IPURL ≠ "" ∧ input.DomainURL ≠ "" ∧ input.CategoryID ≠ 0 ∧
      (∃ c, db.firstCategory input.CategoryID = some c) ∧
      db.firstServiceByName input.Name = none ∧
      addService db body =
        ({ db with
            services := db.services ++
              [{ ID := nextID (db.services.map (fun t => t.ID))
                 Name := input.Name
                 CategoryID := input.CategoryID
                 IPURL := input.IPURL
                 DomainURL := input.DomainURL
                 Description := input.Description
                 Icon := input.Icon
                 SortOrder :=
                   if db.maxSortOrder.getD 0 + 1 = 0 then 999 else db.maxSortOrder.getD 0 + 1
                 Deleted := false }] }, StatusCreated) := by
  cases body with
  | none => left; simp [addService]
  | some input =>
    by_cases hv : input.Name = "" ∨ input.IPURL = "" ∨ input.DomainURL = "" ∨ input.CategoryID = 0
    · left; simp [addService, hv]
    · cases hc : db.firstCategory input.CategoryID with
      | none => left; simp [addService, hv, hc]
      | some c =>
        cases hn : db.firstServiceByName input.Name with
        | some t => left; simp [addService, hv, hc, hn]
        | none =>
          by_cases hu : db.services.any (fun t => t.Name == input.Name) = true
          · left; simp [addService, hv, hc, hn, DB.createService, hu]
          · right
            refine ⟨input, rfl, ?_, ?_, ?_, ?_, ⟨c, hc⟩, hn, ?_⟩
            · exact fun h => hv (Or.inl h)
            · exact fun h => hv (Or.inr (Or.inl h))
            · exact fun h => hv (Or.inr (Or.inr (Or.inl h)))
            · exact fun h => hv (Or.inr (Or.inr (Or.inr h)))
            · simp [addService, hv, hc, hn, DB.createService, hu]

theorem firstService_some (db : DB) (id : Nat) (s : Service)
    (h : db.firstService id = some s) : s ∈ db.liveServices ∧ s.ID = id := by
  unfold DB.firstService at h
  refine ⟨List.mem_of_find?_eq_some h, ?_⟩
  have := List.find?_some h
  simpa using this

theorem firstService_of_mem (db : DB) (s : Service) (h : s ∈ db.liveServices) :
    ∃ t, db.firstService s.ID = some t := by
  unfold DB.firstService
  cases hf : db.liveServices.find? (fun t => t.ID == s.ID) with
  | some t => exact ⟨t, rfl⟩
  | none =>
    rw [List.find?_eq_none] at hf
    have := hf s h
    simp at this

theorem mem_liveServices (db : DB) (s : Service) :
    s ∈ db.liveServices ↔ s ∈ db.services ∧ s.Deleted = false := by
  simp [DB.liveServices, List.mem_filter]

/-- Under the primary-key constraint two visible rows with the same `ID` are the
same row. -/
theorem eq_of_ID_eq (db : DB) (hwf : db.WF) (s t : Service)
    (hs : s ∈ db.liveServices) (ht : t ∈ db.liveServices) (h : s.ID = t.ID) : s = t :=
  List.inj_on_of_nodup_map hwf.1 ((mem_liveServices db s).1 hs).1
    ((mem_liveServices db t).1 ht).1 h

theorem firstService_eq_of_mem (db : DB) (hwf : db.WF) (s : Service)
    (h : s ∈ db.liveServices) : db.firstService s.ID = some s := by
  obtain ⟨t, ht⟩ := firstService_of_mem db s h
  obtain ⟨htm, hid⟩ := firstService_some db s.ID t ht
  rw [ht, eq_of_ID_eq db hwf t s htm h hid]

theorem liveServices_delete_shift (db : DB) (id : Nat) (p : Int) :
    ((db.softDeleteService id).shiftSortOrderAbove p).liveServices =
      (db.liveServices.filter (fun t => decide (t.ID ≠ id))).map (shiftRow p) := by
  unfold DB.liveServices DB.softDeleteService DB.shiftSortOrderAbove
  simp only
  induction db.services with
  | nil => rfl
  | cons t l ih =>
    simp only [List.map_cons, List.filter_cons]
    rw [ih]
    by_cases hd : t.Deleted = true
    · simp [hd]
    · have hd' : t.Deleted = false := by simpa using hd
      by_cases hi : t.ID = id
      · simp [hd', hi]
      · by_cases hp : t.SortOrder > p
        · simp [hd', hi, hp, shiftRow]
        · simp [hd', hi, hp, shiftRow]

theorem deleteService_of_first (db : DB) (id : Nat) (s : Service)
    (h : db.firstService id = some s) :
    deleteService db id =
      ((db.softDeleteService s.ID).shiftSortOrderAbove s.SortOrder, StatusOK) := by
  simp [deleteService, h]

theorem deleteService_of_none (db : DB) (id : Nat) (h : db.firstService id = none) :
    deleteService db id = (db, StatusNotFound) := by
  simp [deleteService, h]

/-! ## Density is preserved by creation and deletion -/

theorem dense_iff (db : DB) : db.Dense ↔ db.sortOrders.Perm (oneTo db.sortOrders.length) := by
  have hlen : db.sortOrders.length = db.liveServices.length := by simp [DB.sortOrders]
  unfold DB.Dense
  rw [hlen]

theorem updateServiceFields_eq (db : DB) (service : Service) (input : ServiceInput) :
    updateServiceFields db service input =
      match db.saveService
        { service with
          IPURL := if input.IPURL = "" then service.IPURL else input.IPURL
          DomainURL := if input.DomainURL = "" then service.DomainURL else input.DomainURL
          Description :=
            if input.Description = "" then service.Description else input.Description
          Icon := if input.Icon = "" then service.Icon else input.Icon } with
      | none => (db, StatusInternalServerError)
      | some db' => (db', StatusOK) := by
  unfold updateServiceFields
  obtain ⟨sid, sname, scat, sip, sdom, sdesc, sicon, sso, sdel⟩ := service
  by_cases h5 : input.IPURL = "" <;> by_cases h6 : input.DomainURL = "" <;>
  by_cases h7 : input.Description = "" <;> by_cases h8 : input.Icon = "" <;>
  simp [h5, h6, h7, h8]

theorem updateServiceCategory_eq (db : DB) (service : Service) (input : ServiceInput) :
    updateServiceCategory db service input =
      if input.CategoryID ≠ 0 ∧ input.CategoryID ≠ service.CategoryID ∧
          db.firstCategory input.CategoryID = none then (db, StatusBadRequest)
      else
        match db.saveService
          { service with
            CategoryID := if input.CategoryID = 0 then service.CategoryID else input.CategoryID
            IPURL := if input.IPURL = "" then service.IPURL else input.IPURL
            DomainURL := if input.DomainURL = "" then service.DomainURL else input.DomainURL
            Description :=
              if input.Description = "" then service.Description else input.Description
            Icon := if input.Icon = "" then service.Icon else input.Icon } with
        | none => (db, StatusInternalServerError)
        | some db' => (db', StatusOK) := by
  unfold updateServiceCategory
  simp only [updateServiceFields_eq]
  obtain ⟨sid, sname, scat, sip, sdom, sdesc, sicon, sso, sdel⟩ := service
  by_cases h3 : input.CategoryID = 0
  · simp [h3]
  · by_cases h4 : input.CategoryID = scat
    · simp [h3, h4]
    · cases hc : db.firstCategory input.CategoryID with
      | none => simp [h3, h4, hc, Nat.pos_iff_ne_zero]
      | some c => simp [h3, h4, hc, Nat.pos_iff_ne_zero]

/-- Closed form of `updateService` on a stored service: the two checks, then the
merged row is saved. -/
theorem updateService_eq (db : DB) (id : Nat) (service : Service) (input : ServiceInput)
    (hf : db.firstService id = some service) :
    updateService db id (some input) =
      if input.Name ≠ "" ∧ input.Name ≠ service.Name ∧
          (db.firstOtherServiceByName input.Name service.ID).isSome then (db, StatusConflict)
      else if input.CategoryID ≠ 0 ∧ input.CategoryID ≠ service.CategoryID ∧
          db.firstCategory input.CategoryID = none then (db, StatusBadRequest)
      else match db.saveService (mergedService service input) with
        | none => (db, StatusInternalServerError)
        | some db' => (db', StatusOK) := by
  unfold updateService
  simp only [hf, updateServiceCategory_eq, mergedService]
  obtain ⟨sid, sname, scat, sip, sdom, sdesc, sicon, sso, sdel⟩ := service
  by_cases h1 : input.Name = ""
  · simp [h1]
  · by_cases h2 : input.Name = sname
    · simp [h1, h2]
    · cases ho : db.firstOtherServiceByName input.Name sid with
      | none => simp [h1, h2, ho]
      | some t => simp [h1, h2, ho]

/-! ## The loop of `reorderServices`, row by row -/

theorem reorderLoop_eq (tx : DB) (index : Nat) (ids : List Nat) :
    reorderLoop tx index ids =
      { tx with services := tx.services.map (fun t => reorderRow t index ids) } := by
  induction ids generalizing tx index with
  | nil => simp [reorderLoop, reorderRow]
  | cons id rest ih =>
    rw [reorderLoop, ih]
    simp [DB.updateSortOrder, reorderRow, List.map_map, Function.comp]

theorem reorderRow_frame (t : Service) (index : Nat) (ids : List Nat) :
    reorderRow t index ids = { t with SortOrder := (reorderRow t index ids).SortOrder } := by
  induction ids generalizing t index with
  | nil => rfl
  | cons id rest ih =>
    rw [reorderRow]
    by_cases h : t.ID = id ∧ t.Deleted = false
    · rw [if_pos h, ih]
    · rw [if_neg h]; exact ih t (index + 1)

theorem reorderRow_ID (t : Service) (index : Nat) (ids : List Nat) :
    (reorderRow t index ids).ID = t.ID := by
  rw [reorderRow_frame]

theorem reorderRow_Deleted (t : Service) (index : Nat) (ids : List Nat) :
    (reorderRow t index ids).Deleted = t.Deleted := by
  rw [reorderRow_frame]

theorem reorderRow_CategoryID (t : Service) (index : Nat) (ids : List Nat) :
    (reorderRow t index ids).CategoryID = t.CategoryID := by
  rw [reorderRow_frame]

theorem reorderRow_Name (t : Service) (index : Nat) (ids : List Nat) :
    (reorderRow t index ids).Name = t.Name := by
  rw [reorderRow_frame]

/-- A row that is soft-deleted or whose `ID` is not in the list is not written. -/
theorem reorderRow_skip (t : Service) (index : Nat) (ids : List Nat)
    (h : t.ID ∉ ids ∨ t.Deleted = true) : reorderRow t index ids = t := by
  induction ids generalizing index with
  | nil => rfl
  | cons id rest ih =>
    rw [reorderRow]
    have hn : ¬ (t.ID = id ∧ t.Deleted = false) := by
      rintro ⟨h1, h2⟩
      rcases h with h | h
      · exact h (by rw [h1]; exact List.mem_cons_self _ _)
      · rw [h2] at h; exact Bool.noConfusion h
    rw [if_neg hn]
    refine ih (index + 1) ?_
    rcases h with h | h
    · exact Or.inl (fun hm => h (List.mem_cons_of_mem _ hm))
    · exact Or.inr h

/-- In a duplicate-free list the visible row whose `ID` stands at 0-based position
`i` ends with `sort_order = index + i + 1`. -/
theorem reorderRow_at (t : Service) (index : Nat) (ids : List Nat) (i : Nat)
    (hn : ids.Nodup) (hi : ids[i]? = some t.ID) (hd : t.Deleted = false) :
    (reorderRow t index ids).SortOrder = (index : Int) + (i : Int) + 1 := by
  induction ids generalizing t index i with
  | nil => simp at hi
  | cons id rest ih =>
    rw [reorderRow]
    cases i with
    | zero =>
      simp only [List.getElem?_cons_zero, Option.some.injEq] at hi
      rw [if_pos ⟨hi.symm, hd⟩, reorderRow_skip]
      · simp
      · left
        simp only
        rw [← hi]
        exact (List.nodup_cons.1 hn).1
    | succ j =>
      simp only [List.getElem?_cons_succ] at hi
      have hne : t.ID ≠ id := by
        intro h
        have hm : t.ID ∈ rest := by
          rw [List.mem_iff_getElem?]
          exact ⟨j, hi⟩
        rw [h] at hm
        exact (List.nodup_cons.1 hn).1 hm
      rw [if_neg (fun h => hne h.1), ih t (index + 1) j (List.nodup_cons.1 hn).2 hi hd]
      push_cast
      ring

theorem reorderServices_eq (db : DB) (ids : List Nat) :
    reorderServices db (some ids) =
      ({ db with services := db.services.map (fun t => reorderRow t 0 ids) }, StatusOK) := by
  simp [reorderServices, reorderLoop_eq]

theorem liveServices_reorder (db : DB) (ids : List Nat) :
    DB.liveServices { db with services := db.services.map (fun t => reorderRow t 0 ids) } =
      db.liveServices.map (fun t => reorderRow t 0 ids) := by
  unfold DB.liveServices
  simp only [List.filter_map]
  congr 1
  apply List.filter_congr
  intro t _
  simp [reorderRow_Deleted]

/-! ## Every way the remaining handlers can end -/

theorem updateService_cases (db : DB) (id : Nat) (body : Option ServiceInput) :
    ((updateService db id body).1 = db ∧ (updateService db id body).2 ≠ StatusOK ∧
      (updateService db id body).2 ≠ StatusCreated) ∨
    ∃ (service : Service) (input : ServiceInput),
      db.firstService id = some service ∧ body = some input ∧
      (input.Name = "" ∨ input.Name = service.Name ∨
        db.firstOtherServiceByName input.Name service.ID = none) ∧
      (input.CategoryID = 0 ∨ input.CategoryID = service.CategoryID ∨
        ∃ c, db.firstCategory input.CategoryID = some c) ∧
      updateService db id body =
        ({ db with
            services := db.services.map
              (fun t => if t.ID = service.ID ∧ t.Deleted = false
                        then mergedService service input else t) }, StatusOK) := by
  cases hf : db.firstService id with
  | none => left; simp [updateService, hf]
  | some service =>
    cases body with
    | none => left; simp [updateService, hf]
    | some input =>
      rw [updateService_eq db id service input hf]
      by_cases h1 : input.Name ≠ "" ∧ input.Name ≠ service.Name ∧
          (db.firstOtherServiceByName input.Name service.ID).isSome
      · left; rw [if_pos h1]; simp
      · rw [if_neg h1]
        by_cases h2 : input.CategoryID ≠ 0 ∧ input.CategoryID ≠ service.CategoryID ∧
            db.firstCategory input.CategoryID = none
        · left; rw [if_pos h2]; simp
        · rw [if_neg h2]
          by_cases hu : db.services.any
              (fun t => t.ID != (mergedService service input).ID &&
                t.Name == (mergedService service input).Name) = true
          · left; simp only [DB.saveService, hu, if_true]; simp
          · right
            refine ⟨service, input, rfl, rfl, ?_, ?_, ?_⟩
            · by_cases ha : input.Name = ""
              · exact Or.inl ha
              · by_cases hb : input.Name = service.Name
                · exact Or.inr (Or.inl hb)
                · right; right
                  cases ho : db.firstOtherServiceByName input.Name service.ID with
                  | none => rfl
                  | some t => exact absurd ⟨ha, hb, by simp [ho]⟩ h1
            · by_cases ha : input.CategoryID = 0
              · exact Or.inl ha
              · by_cases hb : input.CategoryID = service.CategoryID
                · exact Or.inr (Or.inl hb)
                · right; right
                  cases ho : db.firstCategory input.CategoryID with
                  | none => exact absurd ⟨ha, hb, ho⟩ h2
                  | some c => exact ⟨c, rfl⟩
            · simp only [DB.saveService, hu]
              simp [mergedService]

theorem addCategory_cases (db : DB) (body : Option CategoryInput) :
    ((addCategory db body).1 = db ∧ (addCategory db body).2 ≠ StatusOK ∧
      (addCategory db body).2 ≠ StatusCreated) ∨
    ∃ input : CategoryInput, body = some input ∧ input.Name ≠ "" ∧
      db.firstCategoryByName input.Name = none ∧
      addCategory db body =
        ({ db with
            categories := db.categories ++
              [{ ID := nextID (db.categories.map (fun c => c.ID))
                 Name := input.Name
                 Deleted := false }] }, StatusCreated) := by
  cases body with
  | none => left; simp [addCategory]
  | some input =>
    by_cases hv : input.Name = ""
    · left; simp [addCategory, hv]
    · cases hn : db.firstCategoryByName input.Name with
      | some t => left; simp [addCategory, hv, hn]
      | none =>
        by_cases hu : db.categories.any (fun c => c.Name == input.Name) = true
        · left; simp [addCategory, hv, hn, DB.createCategory, hu]
        · right
          exact ⟨input, rfl, hv, hn, by simp [addCategory, hv, hn, DB.createCategory, hu]⟩

theorem updateCategory_cases (db : DB) (id : Nat) (body : Option CategoryInput) :
    ((updateCategory db id body).1 = db ∧ (updateCategory db id body).2 ≠ StatusOK ∧
      (updateCategory db id body).2 ≠ StatusCreated) ∨
    ∃ (category : Category) (input : CategoryInput),
      db.firstCategory id = some category ∧ body = some input ∧ input.Name ≠ "" ∧
      db.firstOtherCategoryByName input.Name category.ID = none ∧
      updateCategory db id body =
        ({ db with
            categories := db.categories.map
              (fun c => if c.ID = category.ID ∧ c.Deleted = false
                        then { category with Name := input.Name } else c) }, StatusOK) := by
  cases hf : db.firstCategory id with
  | none => left; simp [updateCategory, hf]
  | some category =>
    cases body with
    | none => left; simp [updateCategory, hf]
    | some input =>
      by_cases hv : input.Name = ""
      · left; simp [updateCategory, hf, hv]
      · cases hn : db.firstOtherCategoryByName input.Name category.ID with
        | some t => left; simp [updateCategory, hf, hv, hn]
        | none =>
          by_cases hu : db.categories.any
              (fun c => c.ID != category.ID && c.Name == input.Name) = true
          · left; simp [updateCategory, hf, hv, hn, DB.saveCategory, hu]
          · right
            exact ⟨category, input, rfl, rfl, hv, hn,
              by simp [updateCategory, hf, hv, hn, DB.saveCategory, hu]⟩

theorem deleteCategory_cases (db : DB) (id : IDParam) :
    ((deleteCategory db id).1 = db ∧ (deleteCategory db id).2 ≠ StatusOK ∧
      (deleteCategory db id).2 ≠ StatusCreated) ∨
    ∃ category : Category,
      db.firstCategoryByParam id = some category ∧ db.countServicesByParam id = 0 ∧
      deleteCategory db id = (db.softDeleteCategory category.ID, StatusOK) := by
  cases hf : db.firstCategoryByParam id with
  | none => left; simp [deleteCategory, hf]
  | some category =>
    by_cases hc : db.countServicesByParam id > 0
    · left; simp [deleteCategory, hf, hc]
    · right
      refine ⟨category, rfl, by omega, ?_⟩
      simp [deleteCategory, hf, hc]

/-! ## The primary-key constraint is preserved by every handler -/

theorem liveServices_map (db : DB) (g : Service → Service)
    (hg : ∀ t ∈ db.services, (g t).Deleted = t.Deleted) :
    DB.liveServices { db with services := db.services.map g } = db.liveServices.map g := by
  unfold DB.liveServices
  simp only [List.filter_map]
  congr 1
  apply List.filter_congr
  intro t ht
  simp [hg t ht]

theorem liveCategories_map (db : DB) (g : Category → Category)
    (hg : ∀ c ∈ db.categories, (g c).Deleted = c.Deleted) :
    DB.liveCategories { db with categories := db.categories.map g } =
      db.liveCategories.map g := by
  unfold DB.liveCategories
  simp only [List.filter_map]
  congr 1
  apply List.filter_congr
  intro c hc
  simp [hg c hc]

theorem firstCategory_some (db : DB) (id : Nat) (c : Category)
    (h : db.firstCategory id = some c) : c ∈ db.liveCategories ∧ c.ID = id := by
  unfold DB.firstCategory at h
  refine ⟨List.mem_of_find?_eq_some h, ?_⟩
  have := List.find?_some h
  simpa using this

theorem mem_liveCategories (db : DB) (c : Category) :
    c ∈ db.liveCategories ↔ c ∈ db.categories ∧ c.Deleted = false := by
  simp [DB.liveCategories, List.mem_filter]

theorem nodup_liveServices (db : DB) (hwf : db.WF) : db.liveServices.Nodup :=
  (List.Nodup.of_map _ hwf.1).filter _

theorem erase_eq_filter_ID (db : DB) (hwf : db.WF) (s : Service) (hs : s ∈ db.liveServices) :
    db.liveServices.erase s = db.liveServices.filter (fun t => decide (t.ID ≠ s.ID)) := by
  rw [(nodup_liveServices db hwf).erase_eq_filter]
  apply List.filter_congr
  intro t ht
  have : t ≠ s ↔ t.ID ≠ s.ID := by
    constructor
    · intro hne hi
      exact hne (eq_of_ID_eq db hwf t s ht hs hi)
    · intro hne hts
      exact hne (by rw [hts])
  by_cases h : t = s
  · simp [h]
  · simp [h, this.1 h]

/-- C3. For every store and every visible service `s` with `sort_order` `p`,
`deleteService s.ID` succeeds (200); the visible services afterwards are the
former ones without `s`, in the same order, where a row whose `sort_order` was
greater than `p` has it decremented by 1 and every other row, and every other
field, is as before; soft-deleted rows, categories and credentials are not
touched. -/
theorem C3_deleteService_closes_gap (db : DB) (s : Service) (hwf : db.WF)
    (hs : s ∈ db.liveServices) :
    (deleteService db s.ID).2 = StatusOK ∧
    s ∉ (deleteService db s.ID).1.liveServices ∧
    (deleteService db s.ID).1.liveServices =
      (db.liveServices.erase s).map
        (fun t => if t.SortOrder > s.SortOrder then { t with SortOrder := t.SortOrder - 1 }
                  else t) ∧
    (deleteService db s.ID).1.services.filter (fun t => t.Deleted && decide (t.ID ≠ s.ID)) =
      db.services.filter (fun t => t.Deleted && decide (t.ID ≠ s.ID)) ∧
    (deleteService db s.ID).1.categories = db.categories ∧
    (deleteService db s.ID).1.auths = db.auths := by
  have hf := firstService_eq_of_mem db hwf s hs
  rw [deleteService_of_first db s.ID s hf]
  have hlive := liveServices_delete_shift db s.ID s.SortOrder
  refine ⟨rfl, ?_, ?_, ?_, rfl, rfl⟩
  · simp only
    rw [hlive]
    intro hm
    obtain ⟨t, ht, hts⟩ := List.mem_map.1 hm
    have htid : t.ID ≠ s.ID := by simpa using (List.mem_filter.1 ht).2
    apply htid
    rw [← hts]
    unfold shiftRow
    split_ifs <;> rfl
  · simp only
    rw [hlive, erase_eq_filter_ID db hwf s hs]
    rfl
  · simp only [DB.shiftSortOrderAbove, DB.softDeleteService]
    induction db.services with
    | nil => rfl
    | cons t l ih =>
      simp only [List.map_cons, List.filter_cons]
      rw [ih]
      by_cases hd : t.Deleted = true
      · simp [hd]
      · have hd' : t.Deleted = false := by simpa using hd
        by_cases hi : t.ID = s.ID
        · simp [hd', hi]
        · by_cases hp : t.SortOrder > s.SortOrder
          · simp [hd', hi, hp]
          · simp [hd', hi, hp]

theorem C3_witness :
    abcDB.sortOrders = [1, 2, 3] ∧
    (deleteService abcDB 2).1.sortOrders = [1, 2] ∧
    (deleteService abcDB 2).1.liveServices.map (fun t => t.Name) = ["A", "C"] ∧
    ((deleteService abcDB 2).2 = StatusOK ∧
     ({ ID := 2, Name := "B", CategoryID := 1, IPURL := "http://10.0.0.2",
        DomainURL := "http://nas.example", Description := "", Icon := "",
        SortOrder := 2, Deleted := false } : Service) ∉ (deleteService abcDB 2).1.liveServices ∧
     (deleteService abcDB 2).1.liveServices =
      (abcDB.liveServices.erase
        { ID := 2, Name := "B", CategoryID := 1, IPURL := "http://10.0.0.2",
          DomainURL := "http://nas.example", Description := "", Icon := "",
          SortOrder := 2, Deleted := false }).map
        (fun t => if t.SortOrder > 2 then { t with SortOrder := t.SortOrder - 1 } else t) ∧
     (deleteService abcDB 2).1.services.filter (fun t => t.Deleted && decide (t.ID ≠ 2)) =
      abcDB.services.filter (fun t => t.Deleted && decide (t.ID ≠ 2)) ∧
     (deleteService abcDB 2).1.categories = abcDB.categories ∧
     (deleteService abcDB 2).1.auths = abcDB.auths) :=
  ⟨by decide, by decide, by decide,
   C3_deleteService_closes_gap abcDB
     { ID := 2, Name := "B", CategoryID := 1, IPURL := "http://10.0.0.2",
       DomainURL := "http://nas.example", Description := "", Icon := "",
       SortOrder := 2, Deleted := false } (by decide) (by decide)⟩

/-- C4. For every store whose visible services all have `sort_order` at least 1
and below the largest 64-bit integer (or that has none) and every request that
`addService` accepts (201): exactly one row is appended to the table and every
stored row is as before; the new row is visible, has a fresh `ID`, carries the
fields of the request, and its `sort_order` is 1 when there was no visible service
and the maximum `sort_order` of the visible services plus 1 otherwise, which is
also what the 64-bit addition of the handler yields. -/
theorem C4_addService_appends_after_max (db : DB) (body : Option ServiceInput)
    (hpos : ∀ s ∈ db.liveServices, 1 ≤ s.SortOrder)
    (hbound : ∀ s ∈ db.liveServices, s.SortOrder < MaxInt64)
    (hacc : (addService db body).2 = StatusCreated) :
    ∃ (input : ServiceInput) (row : Service),
      body = some input ∧
      (addService db body).1.services = db.services ++ [row] ∧
      (addService db body).1.categories = db.categories ∧
      (addService db body).1.auths = db.auths ∧
      row.ID ∉ db.services.map (fun t => t.ID) ∧ row.Deleted = false ∧
      row.Name = input.Name ∧ row.CategoryID = input.CategoryID ∧
      row.IPURL = input.IPURL ∧ row.DomainURL = input.DomainURL ∧
      row.Description = input.Description ∧ row.Icon = input.Icon ∧
      (db.liveServices = [] → row.SortOrder = 1) ∧
      (∀ m ∈ db.sortOrders, (∀ v ∈ db.sortOrders, v ≤ m) →
        row.SortOrder = m + 1 ∧ row.SortOrder = wrapInt64 (m + 1)) := by
  rcases addService_cases db body with ⟨_, h2, _⟩ | ⟨input, hb, _, _, _, _, _, _, heq⟩
  · exact absurd hacc h2
  · rw [heq]
    refine ⟨input, _, hb, rfl, rfl, rfl, nextID_not_mem _, rfl, rfl, rfl, rfl, rfl, rfl, rfl,
      ?_, ?_⟩
    · intro he
      have : db.maxSortOrder = none := by
        unfold DB.maxSortOrder DB.sortOrders
        rw [he]
        rfl
      simp [this]
    · intro m hm hmax
      have hex : ∃ m', db.maxSortOrder = some m' := by
        cases hq : db.maxSortOrder with
        | some m' => exact ⟨m', rfl⟩
        | none =>
          unfold DB.maxSortOrder at hq
          rw [maxOf_nil_iff] at hq
          rw [hq] at hm
          exact absurd hm (List.not_mem_nil _)
      obtain ⟨m', hm'⟩ := hex
      obtain ⟨h1, h2⟩ := maxOf_spec _ m' hm'
      have heqm : m' = m := le_antisymm (hmax m' h1) (h2 m hm)
      obtain ⟨t, ht, hts⟩ := List.mem_map.1 hm
      have hge := hpos t ht
      have hlt := hbound t ht
      have hne : ¬ (m + 1 = 0) := by omega
      have hwrap : wrapInt64 (m + 1) = m + 1 := by
        unfold wrapInt64
        unfold MaxInt64 at hlt
        omega
      simp only [hm', heqm, Option.getD_some, if_neg hne, hwrap, and_self]

theorem C4_witness :
    (∀ s ∈ abcDB.liveServices, 1 ≤ s.SortOrder) ∧
    (∀ s ∈ abcDB.liveServices, s.SortOrder < MaxInt64) ∧
    (addService abcDB (serviceBody "D")).2 = StatusCreated ∧
    (addService abcDB (serviceBody "D")).1.sortOrders = [1, 2, 3, 4] ∧
    ∃ (input : ServiceInput) (row : Service),
      serviceBody "D" = some input ∧
      (addService abcDB (serviceBody "D")).1.services = abcDB.services ++ [row] ∧
      (addService abcDB (serviceBody "D")).1.categories = abcDB.categories ∧
      (addService abcDB (serviceBody "D")).1.auths = abcDB.auths ∧
      row.ID ∉ abcDB.services.map (fun t => t.ID) ∧ row.Deleted = false ∧
      row.Name = input.Name ∧ row.CategoryID = input.CategoryID ∧
      row.IPURL = input.IPURL ∧ row.DomainURL = input.DomainURL ∧
      row.Description = input.Description ∧ row.Icon = input.Icon ∧
      (abcDB.liveServices = [] → row.SortOrder = 1) ∧
      (∀ m ∈ abcDB.sortOrders, (∀ v ∈ abcDB.sortOrders, v ≤ m) →
        row.SortOrder = m + 1 ∧ row.SortOrder = wrapInt64 (m + 1)) :=
  ⟨by decide, by decide, by decide, by decide,
   C4_addService_appends_after_max abcDB (serviceBody "D") (by decide) (by decide)
     (by decide)⟩

/-! ## Density under the remaining handlers -/

theorem nodup_liveIDs (db : DB) (hwf : db.WF) :
    (db.liveServices.map (fun s => s.ID)).Nodup :=
  List.Nodup.sublist (List.Sublist.map _ (List.filter_sublist _)) hwf.1

theorem reorderServices_dense_of_perm (db : DB) (ids : List Nat) (hwf : db.WF)
    (hperm : ids.Perm (db.liveServices.map (fun s => s.ID))) :
    (reorderServices db (some ids)).1.Dense := by
  have hn : ids.Nodup := hperm.nodup_iff.2 (nodup_liveIDs db hwf)
  have hpos : ∀ t ∈ db.liveServices, ∃ i, i < ids.length ∧ ids[i]? = some t.ID ∧
      (reorderRow t 0 ids).SortOrder = (i : Int) + 1 := by
    intro t ht
    have hm : t.ID ∈ ids := hperm.mem_iff.2 (List.mem_map.2 ⟨t, ht, rfl⟩)
    obtain ⟨i, hi⟩ := List.mem_iff_getElem?.1 hm
    obtain ⟨hlt, _⟩ := List.getElem?_eq_some.1 hi
    refine ⟨i, hlt, hi, ?_⟩
    rw [reorderRow_at t 0 ids i hn hi ((mem_liveServices db t).1 ht).2]
    push_cast
    ring
  rw [reorderServices_eq, dense_iff]
  unfold DB.sortOrders
  simp only
  rw [liveServices_reorder, List.map_map]
  refine perm_oneTo_of_mem_iff _ ids.length ?_ ?_
  · refine List.Nodup.map_on ?_ (nodup_liveServices db hwf)
    intro t ht u hu htu
    simp only [Function.comp] at htu
    obtain ⟨i, _, hi, hti⟩ := hpos t ht
    obtain ⟨j, _, hj, huj⟩ := hpos u hu
    rw [hti, huj] at htu
    have hij : i = j := by omega
    rw [hij, hj] at hi
    exact eq_of_ID_eq db hwf t u ht hu (Option.some.inj hi).symm
  · intro v
    simp only [List.mem_map, Function.comp]
    constructor
    · rintro ⟨t, ht, rfl⟩
      obtain ⟨i, hlt, _, hti⟩ := hpos t ht
      rw [hti]
      omega
    · rintro ⟨h1, h2⟩
      have hlt : (v - 1).toNat < ids.length := by omega
      have hmem : ids[(v - 1).toNat] ∈ db.liveServices.map (fun s => s.ID) :=
        hperm.mem_iff.1 (List.getElem_mem hlt)
      obtain ⟨t, ht, hid⟩ := List.mem_map.1 hmem
      refine ⟨t, ht, ?_⟩
      have hi : ids[(v - 1).toNat]? = some t.ID := by
        rw [List.getElem?_eq_getElem hlt, hid]
      rw [reorderRow_at t 0 ids _ hn hi ((mem_liveServices db t).1 ht).2]
      omega

/-- What `reorderServices` does to the table, for any list of ids: the rows stay in
place and keep every field but `sort_order`; a row that is soft-deleted or not
named in the list is not written; in a duplicate-free list the visible row named
at 0-based position `i` receives `i + 1`. -/
theorem reorderServices_rows (db : DB) (ids : List Nat) :
    List.Forall₂
      (fun t t' =>
        t' = { t with SortOrder := t'.SortOrder } ∧
        (t.ID ∉ ids ∨ t.Deleted = true → t' = t) ∧
        (ids.Nodup → t.Deleted = false → ∀ i : Nat, ids[i]? = some t.ID →
          t'.SortOrder = (i : Int) + 1))
      db.services (reorderServices db (some ids)).1.services := by
  rw [reorderServices_eq]
  simp only
  rw [List.forall₂_map_right_iff, List.forall₂_same]
  intro t _
  refine ⟨reorderRow_frame t 0 ids, reorderRow_skip t 0 ids, ?_⟩
  intro hn hd i hi
  rw [reorderRow_at t 0 ids i hn hi hd]
  push_cast
  ring

/-- C5. For every store and every list of pairwise distinct ids of visible
services, `reorderServices` succeeds (200); the table keeps its rows, each with
every field but `sort_order` as before; the visible service whose id stands at
1-based position `i + 1` of the list has `sort_order = i + 1`; a service whose id
is not in the list, and every soft-deleted row, is exactly as before; categories
and credentials are not touched. -/
theorem C5_reorderServices_assigns_positions (db : DB) (ids : List Nat) (hn : ids.Nodup)
    (hex : ∀ id ∈ ids, ∃ s ∈ db.liveServices, s.ID = id) :
    (reorderServices db (some ids)).2 = StatusOK ∧
    (reorderServices db (some ids)).1.categories = db.categories ∧
    (reorderServices db (some ids)).1.auths = db.auths ∧
    List.Forall₂
      (fun t t' =>
        t' = { t with SortOrder := t'.SortOrder } ∧
        (t.ID ∉ ids ∨ t.Deleted = true → t' = t) ∧
        (t.Deleted = false → ∀ i : Nat, ids[i]? = some t.ID → t'.SortOrder = (i : Int) + 1))
      db.services (reorderServices db (some ids)).1.services ∧
    (∀ i : Nat, i < ids.length → ∃ t' ∈ (reorderServices db (some ids)).1.liveServices,
      ids[i]? = some t'.ID ∧ t'.SortOrder = (i : Int) + 1) := by
  refine ⟨by rw [reorderServices_eq], by rw [reorderServices_eq], by rw [reorderServices_eq],
    ?_, ?_⟩
  · refine List.Forall₂.imp ?_ (reorderServices_rows db ids)
    intro t t' h
    exact ⟨h.1, h.2.1, h.2.2 hn⟩
  · intro i hi
    obtain ⟨s, hs, hid⟩ := hex _ (List.getElem_mem hi)
    have hget : ids[i]? = some s.ID := by rw [List.getElem?_eq_getElem hi, hid]
    refine ⟨reorderRow s 0 ids, ?_, ?_, ?_⟩
    · rw [reorderServices_eq]
      simp only
      rw [liveServices_reorder]
      exact List.mem_map.2 ⟨s, hs, rfl⟩
    · rw [reorderRow_ID]; exact hget
    · rw [reorderRow_at s 0 ids i hn hget ((mem_liveServices db s).1 hs).2]
      push_cast
      ring

theorem C5_witness :
    (reorderServices abcDB (some [3, 1])).1.liveServices.map (fun t => (t.Name, t.SortOrder))
      = [("A", 2), ("B", 2), ("C", 1)] ∧
    ((reorderServices abcDB (some [3, 1])).2 = StatusOK ∧
    (reorderServices abcDB (some [3, 1])).1.categories = abcDB.categories ∧
    (reorderServices abcDB (some [3, 1])).1.auths = abcDB.auths ∧
    List.Forall₂
      (fun t t' =>
        t' = { t with SortOrder := t'.SortOrder } ∧
        (t.ID ∉ [3, 1] ∨ t.Deleted = true → t' = t) ∧
        (t.Deleted = false → ∀ i : Nat, [3, 1][i]? = some t.ID →
          t'.SortOrder = (i : Int) + 1))
      abcDB.services (reorderServices abcDB (some [3, 1])).1.services ∧
    (∀ i : Nat, i < [3, 1].length →
      ∃ t' ∈ (reorderServices abcDB (some [3, 1])).1.liveServices,
        [3, 1][i]? = some t'.ID ∧ t'.SortOrder = (i : Int) + 1)) :=
  ⟨by decide, C5_reorderServices_assigns_positions abcDB [3, 1] (by decide) (by decide)⟩

/-- C6, amended. For every store and every id list that contains an id of no
visible service, `reorderServices` is not rejected: it reports success (200); an
id that matches no visible row writes nothing; every row whose id is not in the
list is exactly as before, and in a duplicate-free list the visible row named at
1-based position `i + 1` (unknown ids counted) receives `sort_order = i + 1`; no
row is added or removed and no other field changes. -/
theorem C6_reorderServices_skips_unknown_ids (db : DB) (ids : List Nat)
    (hunknown : ∃ id ∈ ids, ∀ s ∈ db.liveServices, s.ID ≠ id) :
    (reorderServices db (some ids)).2 = StatusOK ∧
    (reorderServices db (some ids)).1.categories = db.categories ∧
    (reorderServices db (some ids)).1.auths = db.auths ∧
    (∃ id ∈ ids, (∀ s ∈ db.liveServices, s.ID ≠ id) ∧
      ∀ order : Int, db.updateSortOrder id order = db) ∧
    List.Forall₂
      (fun t t' =>
        t' = { t with SortOrder := t'.SortOrder } ∧
        (t.ID ∉ ids ∨ t.Deleted = true → t' = t) ∧
        (ids.Nodup → t.Deleted = false → ∀ i : Nat, ids[i]? = some t.ID →
          t'.SortOrder = (i : Int) + 1))
      db.services (reorderServices db (some ids)).1.services := by
  refine ⟨by rw [reorderServices_eq], by rw [reorderServices_eq], by rw [reorderServices_eq],
    ?_, reorderServices_rows db ids⟩
  obtain ⟨id, hid, hno⟩ := hunknown
  refine ⟨id, hid, hno, fun order => ?_⟩
  unfold DB.updateSortOrder
  have hmap : db.services.map
      (fun t => if t.ID = id ∧ t.Deleted = false then { t with SortOrder := order } else t)
      = db.services := by
    conv_rhs => rw [← List.map_id db.services]
    apply List.map_congr_left
    intro t ht
    have hn : ¬ (t.ID = id ∧ t.Deleted = false) :=
      fun h => hno t ((mem_liveServices db t).2 ⟨ht, h.2⟩) h.1
    rw [if_neg hn]
    rfl
  rw [hmap]

theorem C6_witness :
    (reorderServices abcDB (some [99, 1])).1.liveServices.map
      (fun t => (t.ID, t.SortOrder)) = [(1, 2), (2, 2), (3, 3)] ∧
    ((reorderServices abcDB (some [99, 1])).2 = StatusOK ∧
    (reorderServices abcDB (some [99, 1])).1.categories = abcDB.categories ∧
    (reorderServices abcDB (some [99, 1])).1.auths = abcDB.auths ∧
    (∃ id ∈ [99, 1], (∀ s ∈ abcDB.liveServices, s.ID ≠ id) ∧
      ∀ order : Int, abcDB.updateSortOrder id order = abcDB) ∧
    List.Forall₂
      (fun t t' =>
        t' = { t with SortOrder := t'.SortOrder } ∧
        (t.ID ∉ [99, 1] ∨ t.Deleted = true → t' = t) ∧
        (([99, 1] : List Nat).Nodup → t.Deleted = false →
          ∀ i : Nat, [99, 1][i]? = some t.ID → t'.SortOrder = (i : Int) + 1))
      abcDB.services (reorderServices abcDB (some [99, 1])).1.services) :=
  ⟨by decide,
   C6_reorderServices_skips_unknown_ids abcDB [99, 1] ⟨99, by decide, by decide⟩⟩

/-- C6 as stated fails: on the store of scenario A the list `[99, 1]` contains the
id 99 of no service, yet `reorderServices` answers 200 and service 1 moves from
`sort_order` 1 to 2. -/
theorem C6_counterexample :
    (∀ s ∈ abcDB.liveServices, s.ID ≠ 99) ∧
    (reorderServices abcDB (some [99, 1])).2 = StatusOK ∧
    abcDB.liveServices.map (fun t => (t.ID, t.SortOrder)) = [(1, 1), (2, 2), (3, 3)] ∧
    (reorderServices abcDB (some [99, 1])).1.liveServices.map
      (fun t => (t.ID, t.SortOrder)) = [(1, 2), (2, 2), (3, 3)] := by
  decide

/-! ## Referential integrity -/

theorem liveCategories_softDelete (db : DB) (id : Nat) :
    (db.softDeleteCategory id).liveCategories =
      db.liveCategories.filter (fun c => decide (c.ID ≠ id)) := by
  unfold DB.liveCategories DB.softDeleteCategory
  simp only
  induction db.categories with
  | nil => rfl
  | cons c l ih =>
    simp only [List.map_cons, List.filter_cons]
    rw [ih]
    by_cases hd : c.Deleted = true
    · simp [hd]
    · have hd' : c.Deleted = false := by simpa using hd
      by_cases hi : c.ID = id
      · simp [hd', hi]
      · simp [hd', hi]

theorem count_zero_iff (db : DB) (id : Nat) :
    db.countServicesOfCategory id = 0 ↔ ∀ s ∈ db.liveServices, s.CategoryID ≠ id := by
  unfold DB.countServicesOfCategory
  rw [List.length_eq_zero, List.filter_eq_nil_iff]
  simp

theorem refOK_of_rows (db db' : DB)
    (hs : ∀ s' ∈ db'.liveServices, ∃ s ∈ db.liveServices, s.CategoryID = s'.CategoryID)
    (hc : ∀ c ∈ db.liveCategories, (∃ s ∈ db.liveServices, s.CategoryID = c.ID) →
      ∃ c' ∈ db'.liveCategories, c'.ID = c.ID)
    (h : db.RefOK) : db'.RefOK := by
  intro s' hs'
  obtain ⟨s, hsm, hsc⟩ := hs s' hs'
  obtain ⟨c, hcm, hcid⟩ := h s hsm
  obtain ⟨c', hcm', hcid'⟩ := hc c hcm ⟨s, hsm, hcid.symm⟩
  exact ⟨c', hcm', by rw [hcid', hcid, hsc]⟩

theorem addService_refOK (db : DB) (body : Option ServiceInput) (h : db.RefOK) :
    (addService db body).1.RefOK := by
  rcases addService_cases db body with ⟨h1, _⟩ | ⟨input, _, _, _, _, _, ⟨c, hc⟩, _, heq⟩
  · rw [h1]; exact h
  · rw [heq]
    obtain ⟨hcm, hcid⟩ := firstCategory_some db _ c hc
    intro s' hs'
    unfold DB.liveServices at hs'
    simp only at hs'
    rw [liveServices_append _ _ rfl, List.mem_append, List.mem_singleton] at hs'
    rcases hs' with hold | hnew
    · exact h s' hold
    · exact ⟨c, hcm, by rw [hnew]; exact hcid⟩

theorem updateService_refOK (db : DB) (id : Nat) (body : Option ServiceInput)
    (h : db.RefOK) : (updateService db id body).1.RefOK := by
  rcases updateService_cases db id body with
    ⟨h1, _⟩ | ⟨service, input, hf, _, _, hcat, heq⟩
  · rw [h1]; exact h
  · obtain ⟨hs, _⟩ := firstService_some db id service hf
    have hsd := ((mem_liveServices db service).1 hs).2
    rw [heq]
    intro s' hs'
    rw [liveServices_map] at hs'
    · obtain ⟨t, ht, hts⟩ := List.mem_map.1 hs'
      split_ifs at hts with hcond
      · rw [← hts]
        show ∃ c ∈ db.liveCategories, c.ID = (mergedService service input).CategoryID
        simp only [mergedService]
        rcases hcat with h0 | hsame | ⟨c, hc⟩
        · rw [if_pos h0]; exact h service hs
        · by_cases h0 : input.CategoryID = 0
          · rw [if_pos h0]; exact h service hs
          · rw [if_neg h0, hsame]; exact h service hs
        · obtain ⟨hcm, hcid⟩ := firstCategory_some db _ c hc
          by_cases h0 : input.CategoryID = 0
          · rw [if_pos h0]; exact h service hs
          · rw [if_neg h0]; exact ⟨c, hcm, hcid⟩
      · rw [← hts]; exact h t ht
    · intro t _
      split_ifs with hcond
      · rw [hcond.2]; exact hsd
      · rfl

theorem deleteService_refOK (db : DB) (id : Nat) (h : db.RefOK) :
    (deleteService db id).1.RefOK := by
  cases hf : db.firstService id with
  | none => rw [deleteService_of_none db id hf]; exact h
  | some s =>
    rw [deleteService_of_first db id s hf]
    refine refOK_of_rows db _ ?_ (fun c hc _ => ⟨c, hc, rfl⟩) h
    intro s' hs'
    rw [liveServices_delete_shift] at hs'
    obtain ⟨t, ht, hts⟩ := List.mem_map.1 hs'
    refine ⟨t, (List.mem_filter.1 ht).1, ?_⟩
    rw [← hts]
    unfold shiftRow
    split_ifs <;> rfl

theorem reorderServices_refOK (db : DB) (body : Option (List Nat)) (h : db.RefOK) :
    (reorderServices db body).1.RefOK := by
  cases body with
  | none => exact h
  | some ids =>
    rw [reorderServices_eq]
    refine refOK_of_rows db _ ?_ (fun c hc _ => ⟨c, hc, rfl⟩) h
    intro s' hs'
    rw [liveServices_reorder] at hs'
    obtain ⟨t, ht, hts⟩ := List.mem_map.1 hs'
    exact ⟨t, ht, by rw [← hts, reorderRow_CategoryID]⟩

theorem addCategory_refOK (db : DB) (body : Option CategoryInput) (h : db.RefOK) :
    (addCategory db body).1.RefOK := by
  rcases addCategory_cases db body with ⟨h1, _⟩ | ⟨input, _, _, _, heq⟩
  · rw [h1]; exact h
  · rw [heq]
    refine refOK_of_rows db _ (fun s' hs' => ⟨s', hs', rfl⟩) ?_ h
    intro c hc _
    refine ⟨c, ?_, rfl⟩
    unfold DB.liveCategories at hc ⊢
    simp only [List.filter_append, List.mem_append]
    exact Or.inl hc

theorem updateCategory_refOK (db : DB) (id : Nat) (body : Option CategoryInput)
    (h : db.RefOK) : (updateCategory db id body).1.RefOK := by
  rcases updateCategory_cases db id body with ⟨h1, _⟩ | ⟨category, input, hf, _, _, _, heq⟩
  · rw [h1]; exact h
  · obtain ⟨hcm, _⟩ := firstCategory_some db id category hf
    have hcd := ((mem_liveCategories db category).1 hcm).2
    rw [heq]
    refine refOK_of_rows db _ (fun s' hs' => ⟨s', hs', rfl⟩) ?_ h
    intro c hc _
    rw [liveCategories_map]
    · refine ⟨_, List.mem_map.2 ⟨c, hc, rfl⟩, ?_⟩
      split_ifs with hcond
      · exact hcond.1.symm
      · rfl
    · intro c' _
      split_ifs with hcond
      · rw [hcond.2]; exact hcd
      · rfl

theorem deleteCategory_refOK (db : DB) (id : Nat) (h : db.RefOK) :
    (deleteCategory db (.numeral id)).1.RefOK := by
  rcases deleteCategory_cases db (.numeral id) with ⟨h1, _⟩ | ⟨category, hf, hcount, heq⟩
  · rw [h1]; exact h
  · obtain ⟨_, hcid⟩ := firstCategory_some db id category hf
    rw [heq]
    refine refOK_of_rows db _ (fun s' hs' => ⟨s', hs', rfl⟩) ?_ h
    rintro c hc ⟨s, hs, hsc⟩
    refine ⟨c, ?_, rfl⟩
    simp only
    rw [liveCategories_softDelete, List.mem_filter]
    refine ⟨hc, ?_⟩
    have := (count_zero_iff db id).1 hcount s hs
    simp only [decide_eq_true_eq]
    rw [hcid, ← hsc]
    exact fun e => this e

/-- Referential integrity is kept by every request whose `deleteCategory`
parameter is a numeral, whether the request succeeds or fails. -/
theorem handle_refOK_of_numeral (db : DB) (req : Request) (h : db.RefOK)
    (hnum : ∀ p, req = .deleteCategory p → ∃ id, p = .numeral id) :
    (handle db req).1.RefOK := by
  cases req with
  | addService body => exact addService_refOK db body h
  | updateService id body => exact updateService_refOK db id body h
  | deleteService id => exact deleteService_refOK db id h
  | reorderServices body => exact reorderServices_refOK db body h
  | addCategory body => exact addCategory_refOK db body h
  | updateCategory id body => exact updateCategory_refOK db id body h
  | deleteCategory p =>
    obtain ⟨id, hp⟩ := hnum p rfl
    subst hp
    exact deleteCategory_refOK db id h

/-- C7, the code at the failing input.  In the store of scenario A every service
refers to category 1.  The request `DELETE /api/categories/id` loads category 1
(the WHERE clause `id` holds of it), counts no service whose `category_id` equals
the string `id`, soft-deletes category 1 and answers 200: afterwards the three
services refer to no visible category. -/
theorem C7_text_id_breaks_referential_integrity :
    abcDB.RefOK ∧
    abcDB.liveServices.map (fun s => s.CategoryID) = [1, 1, 1] ∧
    (handle abcDB (.deleteCategory idText)).2 = StatusOK ∧
    (handle abcDB (.deleteCategory idText)).1.liveCategories = [] ∧
    (handle abcDB (.deleteCategory idText)).1.liveServices.map (fun s => s.CategoryID)
      = [1, 1, 1] ∧
    ¬ (handle abcDB (.deleteCategory idText)).1.RefOK := by
  decide

/-! ## Category deletion -/

theorem firstCategory_of_mem (db : DB) (c : Category) (h : c ∈ db.liveCategories) :
    ∃ c', db.firstCategory c.ID = some c' := by
  unfold DB.firstCategory
  cases hf : db.liveCategories.find? (fun d => d.ID == c.ID) with
  | some d => exact ⟨d, rfl⟩
  | none =>
    rw [List.find?_eq_none] at hf
    have := hf c h
    simp at this

theorem eq_of_categoryID_eq (db : DB) (hwf : db.WF) (c d : Category)
    (hc : c ∈ db.liveCategories) (hd : d ∈ db.liveCategories) (h : c.ID = d.ID) : c = d :=
  List.inj_on_of_nodup_map hwf.2 ((mem_liveCategories db c).1 hc).1
    ((mem_liveCategories db d).1 hd).1 h

theorem nodup_liveCategories (db : DB) (hwf : db.WF) : db.liveCategories.Nodup :=
  (List.Nodup.of_map _ hwf.2).filter _

theorem erase_eq_filter_categoryID (db : DB) (hwf : db.WF) (c : Category)
    (hc : c ∈ db.liveCategories) :
    db.liveCategories.erase c = db.liveCategories.filter (fun d => decide (d.ID ≠ c.ID)) := by
  rw [(nodup_liveCategories db hwf).erase_eq_filter]
  apply List.filter_congr
  intro d hd
  by_cases h : d = c
  · simp [h]
  · have : d.ID ≠ c.ID := fun hi => h (eq_of_categoryID_eq db hwf d c hd hc hi)
    simp [h, this]

/-- With a numeral as parameter `deleteCategory` guards the references: for a
visible category `c`, `deleteCategory c.ID` answers 409 and leaves the store as it
is while a visible service refers to `c`, and otherwise answers 200 and removes
exactly `c` from the visible categories. -/
theorem deleteCategory_numeral_guard (db : DB) (c : Category) (hwf : db.WF)
    (hc : c ∈ db.liveCategories) :
    ((∃ s ∈ db.liveServices, s.CategoryID = c.ID) →
      deleteCategory db (.numeral c.ID) = (db, StatusConflict)) ∧
    ((∀ s ∈ db.liveServices, s.CategoryID ≠ c.ID) →
      (deleteCategory db (.numeral c.ID)).2 = StatusOK ∧
      (deleteCategory db (.numeral c.ID)).1.liveCategories = db.liveCategories.erase c ∧
      c ∉ (deleteCategory db (.numeral c.ID)).1.liveCategories ∧
      (deleteCategory db (.numeral c.ID)).1.services = db.services ∧
      (deleteCategory db (.numeral c.ID)).1.auths = db.auths) := by
  obtain ⟨c', hf⟩ := firstCategory_of_mem db c hc
  obtain ⟨_, hid⟩ := firstCategory_some db c.ID c' hf
  constructor
  · rintro ⟨s, hs, hsc⟩
    have hcount : db.countServicesOfCategory c.ID > 0 := by
      rcases Nat.eq_zero_or_pos (db.countServicesOfCategory c.ID) with h0 | hpos
      · exact absurd hsc ((count_zero_iff db c.ID).1 h0 s hs)
      · exact hpos
    simp [deleteCategory, DB.firstCategoryByParam, DB.countServicesByParam, hf, hcount]
  · intro hnone
    have hcount : ¬ (db.countServicesOfCategory c.ID > 0) := by
      rw [(count_zero_iff db c.ID).2 hnone]
      exact lt_irrefl 0
    have heq : deleteCategory db (.numeral c.ID) =
        (db.softDeleteCategory c.ID, StatusOK) := by
      simp [deleteCategory, DB.firstCategoryByParam, DB.countServicesByParam, hf, hcount,
        hid]
    rw [heq]
    refine ⟨rfl, ?_, ?_, rfl, rfl⟩
    · simp only
      rw [liveCategories_softDelete, erase_eq_filter_categoryID db hwf c hc]
    · simp only
      rw [liveCategories_softDelete, List.mem_filter]
      simp

/-- C8, the code at the failing input.  In the store of scenario A the visible
category 1 is referred to by three visible services, and the request
`DELETE /api/categories/id` is answered 200, not 409: category 1 is removed from
the visible categories. -/
theorem C8_text_id_deletes_referenced_category :
    ({ ID := 1, Name := "Default", Deleted := false } : Category) ∈ abcDB.liveCategories ∧
    (abcDB.liveServices.filter (fun s => s.CategoryID == 1)).length = 3 ∧
    deleteCategory abcDB (.numeral 1) = (abcDB, StatusConflict) ∧
    (deleteCategory abcDB idText).2 = StatusOK ∧
    (deleteCategory abcDB idText).2 ≠ StatusConflict ∧
    ({ ID := 1, Name := "Default", Deleted := false } : Category) ∉
      (deleteCategory abcDB idText).1.liveCategories := by
  decide

/-! ## Name uniqueness -/

theorem firstServiceByName_none (db : DB) (name : String) :
    db.firstServiceByName name = none ↔ ∀ s ∈ db.liveServices, s.Name ≠ name := by
  unfold DB.firstServiceByName
  rw [List.find?_eq_none]
  simp

theorem firstOtherServiceByName_none (db : DB) (name : String) (id : Nat) :
    db.firstOtherServiceByName name id = none ↔
      ∀ s ∈ db.liveServices, s.Name = name → s.ID = id := by
  unfold DB.firstOtherServiceByName
  rw [List.find?_eq_none]
  simp

theorem firstCategoryByName_none (db : DB) (name : String) :
    db.firstCategoryByName name = none ↔ ∀ c ∈ db.liveCategories, c.Name ≠ name := by
  unfold DB.firstCategoryByName
  rw [List.find?_eq_none]
  simp

theorem firstOtherCategoryByName_none (db : DB) (name : String) (id : Nat) :
    db.firstOtherCategoryByName name id = none ↔
      ∀ c ∈ db.liveCategories, c.Name = name → c.ID = id := by
  unfold DB.firstOtherCategoryByName
  rw [List.find?_eq_none]
  simp

theorem addService_namesUnique (db : DB) (body : Option ServiceInput) (hu : db.NamesUnique) :
    (addService db body).1.NamesUnique := by
  rcases addService_cases db body with ⟨h1, _⟩ | ⟨input, _, _, _, _, _, _, hn, heq⟩
  · rw [h1]; exact hu
  · rw [heq]
    refine ⟨?_, hu.2⟩
    unfold DB.liveServices
    simp only
    rw [liveServices_append _ _ rfl, List.map_append, List.nodup_append]
    refine ⟨hu.1, List.nodup_singleton _, ?_⟩
    intro a ha hb
    simp only [List.map_cons, List.map_nil, List.mem_singleton] at hb
    obtain ⟨t, ht, hta⟩ := List.mem_map.1 ha
    exact (firstServiceByName_none db input.Name).1 hn t ht (by rw [hta, hb])

theorem updateService_namesUnique (db : DB) (id : Nat) (body : Option ServiceInput)
    (hwf : db.WF) (hu : db.NamesUnique) : (updateService db id body).1.NamesUnique := by
  rcases updateService_cases db id body with
    ⟨h1, _⟩ | ⟨service, input, hf, _, hname, _, heq⟩
  · rw [h1]; exact hu
  · obtain ⟨hs, _⟩ := firstService_some db id service hf
    have hsd := ((mem_liveServices db service).1 hs).2
    have hinj : ∀ t ∈ db.liveServices, ∀ u ∈ db.liveServices, t.Name = u.Name → t = u :=
      fun t ht u hv h => List.inj_on_of_nodup_map hu.1 ht hv h
    have hmerged : ∀ u ∈ db.liveServices,
        (mergedService service input).Name = u.Name → u.ID = service.ID := by
      intro u hv hmu
      simp only [mergedService] at hmu
      by_cases h0 : input.Name = ""
      · rw [if_pos h0] at hmu
        rw [hinj service hs u hv hmu]
      · rw [if_neg h0] at hmu
        rcases hname with h | h | h
        · exact absurd h h0
        · rw [h] at hmu
          rw [hinj service hs u hv hmu]
        · exact (firstOtherServiceByName_none db _ _).1 h u hv hmu.symm
    rw [heq]
    refine ⟨?_, hu.2⟩
    rw [liveServices_map, List.map_map]
    · refine List.Nodup.map_on ?_ (nodup_liveServices db hwf)
      intro t ht u hv htu
      simp only [Function.comp] at htu
      by_cases ct : t.ID = service.ID ∧ t.Deleted = false
      · by_cases cu : u.ID = service.ID ∧ u.Deleted = false
        · exact eq_of_ID_eq db hwf t u ht hv (by rw [ct.1, cu.1])
        · rw [if_pos ct, if_neg cu] at htu
          exact eq_of_ID_eq db hwf t u ht hv (by rw [ct.1, hmerged u hv htu])
      · by_cases cu : u.ID = service.ID ∧ u.Deleted = false
        · rw [if_neg ct, if_pos cu] at htu
          exact eq_of_ID_eq db hwf t u ht hv (by rw [cu.1, hmerged t ht htu.symm])
        · rw [if_neg ct, if_neg cu] at htu
          exact hinj t ht u hv htu
    · intro t _
      split_ifs with hcond
      · rw [hcond.2]; exact hsd
      · rfl

theorem addCategory_namesUnique (db : DB) (body : Option CategoryInput)
    (hu : db.NamesUnique) : (addCategory db body).1.NamesUnique := by
  rcases addCategory_cases db body with ⟨h1, _⟩ | ⟨input, _, _, hn, heq⟩
  · rw [h1]; exact hu
  · rw [heq]
    refine ⟨hu.1, ?_⟩
    unfold DB.liveCategories
    simp only [List.filter_append, List.map_append]
    rw [List.nodup_append]
    refine ⟨hu.2, ?_, ?_⟩
    · simp
    · intro a ha hb
      obtain ⟨t, ht, hta⟩ := List.mem_map.1 ha
      have hb' : a = input.Name := by simpa using hb
      exact (firstCategoryByName_none db input.Name).1 hn t ht (by rw [hta, hb'])

theorem updateCategory_namesUnique (db : DB) (id : Nat) (body : Option CategoryInput)
    (hwf : db.WF) (hu : db.NamesUnique) : (updateCategory db id body).1.NamesUnique := by
  rcases updateCategory_cases db id body with
    ⟨h1, _⟩ | ⟨category, input, hf, _, _, hname, heq⟩
  · rw [h1]; exact hu
  · obtain ⟨hcm, _⟩ := firstCategory_some db id category hf
    have hcd := ((mem_liveCategories db category).1 hcm).2
    have hinj : ∀ t ∈ db.liveCategories, ∀ u ∈ db.liveCategories, t.Name = u.Name → t = u :=
      fun t ht u hv h => List.inj_on_of_nodup_map hu.2 ht hv h
    have hother := (firstOtherCategoryByName_none db _ _).1 hname
    rw [heq]
    refine ⟨hu.1, ?_⟩
    rw [liveCategories_map, List.map_map]
    · refine List.Nodup.map_on ?_ (nodup_liveCategories db hwf)
      intro t ht u hv htu
      simp only [Function.comp] at htu
      by_cases ct : t.ID = category.ID ∧ t.Deleted = false
      · by_cases cu : u.ID = category.ID ∧ u.Deleted = false
        · exact eq_of_categoryID_eq db hwf t u ht hv (by rw [ct.1, cu.1])
        · rw [if_pos ct, if_neg cu] at htu
          exact eq_of_categoryID_eq db hwf t u ht hv (by rw [ct.1, hother u hv htu.symm])
      · by_cases cu : u.ID = category.ID ∧ u.Deleted = false
        · rw [if_neg ct, if_pos cu] at htu
          exact eq_of_categoryID_eq db hwf t u ht hv (by rw [cu.1, hother t ht htu])
        · rw [if_neg ct, if_neg cu] at htu
          exact hinj t ht u hv htu
    · intro t _
      split_ifs with hcond
      · rw [hcond.2]; exact hcd
      · rfl

theorem firstCategory_eq_of_mem (db : DB) (hwf : db.WF) (c : Category)
    (h : c ∈ db.liveCategories) : db.firstCategory c.ID = some c := by
  obtain ⟨d, hd⟩ := firstCategory_of_mem db c h
  obtain ⟨hdm, hid⟩ := firstCategory_some db c.ID d hd
  rw [hd, eq_of_categoryID_eq db hwf d c hdm h hid]

theorem updateService_rename_conflict (db : DB) (hwf : db.WF) (hu : db.NamesUnique)
    (s t : Service) (hs : s ∈ db.liveServices) (ht : t ∈ db.liveServices) (hts : t ≠ s)
    (input : ServiceInput) (hin : input.Name = t.Name) (hne : t.Name ≠ "") :
    updateService db s.ID (some input) = (db, StatusConflict) := by
  rw [updateService_eq db s.ID s input (firstService_eq_of_mem db hwf s hs)]
  have h1 : input.Name ≠ "" := by rw [hin]; exact hne
  have h2 : input.Name ≠ s.Name := by
    rw [hin]
    exact fun h => hts (List.inj_on_of_nodup_map hu.1 ht hs h)
  have h3 : (db.firstOtherServiceByName input.Name s.ID).isSome = true := by
    cases ho : db.firstOtherServiceByName input.Name s.ID with
    | some u => rfl
    | none =>
      have := (firstOtherServiceByName_none db _ _).1 ho t ht hin.symm
      exact absurd (eq_of_ID_eq db hwf t s ht hs this) hts
  rw [if_pos ⟨h1, h2, h3⟩]

theorem updateCategory_rename_conflict (db : DB) (hwf : db.WF)
    (c d : Category) (hc : c ∈ db.liveCategories) (hd : d ∈ db.liveCategories) (hdc : d ≠ c)
    (hne : d.Name ≠ "") :
    updateCategory db c.ID (some { Name := d.Name }) = (db, StatusConflict) := by
  have hf := firstCategory_eq_of_mem db hwf c hc
  cases ho : db.firstOtherCategoryByName d.Name c.ID with
  | some u => simp [updateCategory, hf, hne, ho]
  | none =>
    have := (firstOtherCategoryByName_none db _ _).1 ho d hd rfl
    exact absurd (eq_of_categoryID_eq db hwf d c hd hc this) hdc

theorem updateService_own_name (db : DB) (hwf : db.WF) (s : Service)
    (hs : s ∈ db.liveServices) (input : ServiceInput) (hin : input.Name = s.Name) :
    (updateService db s.ID (some input)).2 ≠ StatusConflict := by
  rw [updateService_eq db s.ID s input (firstService_eq_of_mem db hwf s hs)]
  have h1 : ¬ (input.Name ≠ "" ∧ input.Name ≠ s.Name ∧
      (db.firstOtherServiceByName input.Name s.ID).isSome = true) :=
    fun h => h.2.1 hin
  rw [if_neg h1]
  split_ifs
  · simp
  · cases db.saveService (mergedService s input) <;> simp

theorem updateCategory_own_name (db : DB) (hwf : db.WF) (hu : db.NamesUnique) (c : Category)
    (hc : c ∈ db.liveCategories) :
    (updateCategory db c.ID (some { Name := c.Name })).2 ≠ StatusConflict := by
  have hf := firstCategory_eq_of_mem db hwf c hc
  have ho : db.firstOtherCategoryByName c.Name c.ID = none := by
    rw [firstOtherCategoryByName_none]
    intro d hd hdn
    rw [List.inj_on_of_nodup_map hu.2 hd hc hdn]
  by_cases hne : c.Name = ""
  · simp [updateCategory, hf, hne]
  · cases hsave : db.saveCategory { c with Name := c.Name } with
    | none => simp [updateCategory, hf, hne, ho, hsave]
    | some db' => simp [updateCategory, hf, hne, ho, hsave]

/-- C9. Name uniqueness is an invariant of the Fiber wiring: if no two visible
services and no two visible categories share a name, the same holds after any
`addService`, `updateService`, `addCategory` or `updateCategory` request.  A
request that renames a service or a category to the (non-empty) name of a
different visible row of the same table answers 409 and leaves the store exactly
as before, while an update that supplies the current name of the row itself is
never answered 409. -/
theorem C9_name_uniqueness_invariant (db : DB) (hwf : db.WF) (hu : db.NamesUnique) :
    (∀ body, (addService db body).1.NamesUnique) ∧
    (∀ id body, (updateService db id body).1.NamesUnique) ∧
    (∀ body, (addCategory db body).1.NamesUnique) ∧
    (∀ id body, (updateCategory db id body).1.NamesUnique) ∧
    (∀ s ∈ db.liveServices, ∀ t ∈ db.liveServices, t ≠ s → t.Name ≠ "" →
      ∀ input : ServiceInput, input.Name = t.Name →
        updateService db s.ID (some input) = (db, StatusConflict)) ∧
    (∀ c ∈ db.liveCategories, ∀ d ∈ db.liveCategories, d ≠ c → d.Name ≠ "" →
      updateCategory db c.ID (some { Name := d.Name }) = (db, StatusConflict)) ∧
    (∀ s ∈ db.liveServices, ∀ input : ServiceInput, input.Name = s.Name →
      (updateService db s.ID (some input)).2 ≠ StatusConflict) ∧
    (∀ c ∈ db.liveCategories,
      (updateCategory db c.ID (some { Name := c.Name })).2 ≠ StatusConflict) :=
  ⟨fun body => addService_namesUnique db body hu,
   fun id body => updateService_namesUnique db id body hwf hu,
   fun body => addCategory_namesUnique db body hu,
   fun id body => updateCategory_namesUnique db id body hwf hu,
   fun s hs t ht hts hne input hin =>
     updateService_rename_conflict db hwf hu s t hs ht hts input hin hne,
   fun c hc d hd hdc hne => updateCategory_rename_conflict db hwf c d hc hd hdc hne,
   fun s hs input hin => updateService_own_name db hwf s hs input hin,
   fun c hc => updateCategory_own_name db hwf hu c hc⟩

theorem C9_witness :
    (updateService twoCategoriesDB 1
        (some { Name := "B", IPURL := "", DomainURL := "", CategoryID := 0,
                Description := "", Icon := "" })
      = (twoCategoriesDB, StatusConflict)) ∧
    (updateCategory twoCategoriesDB 2 (some { Name := "Default" })
      = (twoCategoriesDB, StatusConflict)) ∧
    ((updateService twoCategoriesDB 1 (serviceBody "A")).2 ≠ StatusConflict) ∧
    (updateService twoCategoriesDB 1 (serviceBody "A")).2 = StatusOK ∧
    (updateService twoCategoriesDB 1 (serviceBody "Z")).1.NamesUnique :=
  ⟨(C9_name_uniqueness_invariant twoCategoriesDB (by decide) (by decide)).2.2.2.2.1
      { ID := 1, Name := "A", CategoryID := 1, IPURL := "http://10.0.0.2",
        DomainURL := "http://nas.example", Description := "", Icon := "",
        SortOrder := 1, Deleted := false } (by decide)
      { ID := 2, Name := "B", CategoryID := 1, IPURL := "http://10.0.0.2",
        DomainURL := "http://nas.example", Description := "", Icon := "",
        SortOrder := 2, Deleted := false } (by decide) (by decide) (by decide)
      { Name := "B", IPURL := "", DomainURL := "", CategoryID := 0,
        Description := "", Icon := "" } rfl,
   (C9_name_uniqueness_invariant twoCategoriesDB (by decide) (by decide)).2.2.2.2.2.1
      { ID := 2, Name := "Media", Deleted := false } (by decide)
      { ID := 1, Name := "Default", Deleted := false } (by decide) (by decide) (by decide),
   (C9_name_uniqueness_invariant twoCategoriesDB (by decide) (by decide)).2.2.2.2.2.2.1
      { ID := 1, Name := "A", CategoryID := 1, IPURL := "http://10.0.0.2",
        DomainURL := "http://nas.example", Description := "", Icon := "",
        SortOrder := 1, Deleted := false } (by decide)
      { Name := "A", IPURL := "http://10.0.0.2", DomainURL := "http://nas.example",
        CategoryID := 1, Description := "", Icon := "" } rfl,
   by decide,
   (C9_name_uniqueness_invariant twoCategoriesDB (by decide) (by decide)).2.1 1
      (serviceBody "Z")⟩

/-! ## Duplicate names on creation -/

/-- C10. For every store, a create request whose name equals, character for
character, the name of a visible row of the same table answers 409 and the store
after the call is the store before it: `addCategory` for every non-empty
duplicate category name, and `addService` for every request with a duplicate
(non-empty) service name whose `ip_url` and `domain_url` are filled in and whose
`category_id` resolves to a visible category. -/
theorem C10_duplicate_create_conflicts (db : DB) :
    (∀ name : String, name ≠ "" → (∃ c ∈ db.liveCategories, c.Name = name) →
      addCategory db (some { Name := name }) = (db, StatusConflict)) ∧
    (∀ input : ServiceInput,
      input.Name ≠ "" → input.IPURL ≠ "" → input.DomainURL ≠ "" → input.CategoryID ≠ 0 →
      (∃ c ∈ db.liveCategories, c.ID = input.CategoryID) →
      (∃ s ∈ db.liveServices, s.Name = input.Name) →
      addService db (some input) = (db, StatusConflict)) := by
  constructor
  · rintro name hne ⟨c, hc, hcn⟩
    cases hf : db.firstCategoryByName name with
    | some d => simp [addCategory, hne, hf]
    | none => exact absurd hcn ((firstCategoryByName_none db name).1 hf c hc)
  · rintro input h1 h2 h3 h4 ⟨c, hc, hcid⟩ ⟨s, hs, hsn⟩
    have hcat : ∃ d, db.firstCategory input.CategoryID = some d := by
      rw [← hcid]
      exact firstCategory_of_mem db c hc
    obtain ⟨d, hd⟩ := hcat
    cases hf : db.firstServiceByName input.Name with
    | some t => simp [addService, h1, h2, h3, h4, hd, hf]
    | none => exact absurd hsn ((firstServiceByName_none db input.Name).1 hf s hs)

theorem C10_witness :
    addCategory abcDB (some { Name := "Default" }) = (abcDB, StatusConflict) ∧
    addService abcDB (serviceBody "B") = (abcDB, StatusConflict) ∧
    (addService abcDB (serviceBody "b")).2 = StatusCreated :=
  ⟨(C10_duplicate_create_conflicts abcDB).1 "Default" (by decide)
      ⟨{ ID := 1, Name := "Default", Deleted := false }, by decide, rfl⟩,
   (C10_duplicate_create_conflicts abcDB).2
      { Name := "B", IPURL := "http://10.0.0.2", DomainURL := "http://nas.example",
        CategoryID := 1, Description := "", Icon := "" }
      (by decide) (by decide) (by decide) (by decide)
      ⟨{ ID := 1, Name := "Default", Deleted := false }, by decide, rfl⟩
      ⟨{ ID := 2, Name := "B", CategoryID := 1, IPURL := "http://10.0.0.2",
         DomainURL := "http://nas.example", Description := "", Icon := "",
         SortOrder := 2, Deleted := false }, by decide, rfl⟩,
   by decide⟩

/-! ## Required fields of `addService` -/

theorem firstCategory_none_iff (db : DB) (id : Nat) :
    db.firstCategory id = none ↔ ¬ ∃ c ∈ db.liveCategories, c.ID = id := by
  unfold DB.firstCategory
  rw [List.find?_eq_none]
  simp

theorem any_name_false (db : DB) (name : String) (h : ∀ s ∈ db.services, s.Name ≠ name) :
    db.services.any (fun t => t.Name == name) = false := by
  rw [List.any_eq_false]
  intro t ht
  simpa using h t ht

/-- C11, amended. The required fields of `addService` are `name`, `ip_url`,
`domain_url` and `category_id`.  For every store and every decoded request: if
the three strings are non-empty, `category_id` is not 0 and resolves to a
visible category, and no row of the service table carries the name, the request
is answered 201 and one row with the fields of the request is appended, whatever
`description` and `icon` contain; and the request is answered 400 exactly when
`name`, `ip_url` or `domain_url` is empty, `category_id` is 0, or `category_id`
resolves to no visible category, in which case the store is as before. -/
theorem C11_addService_required_fields (db : DB) (input : ServiceInput) :
    (input.Name ≠ "" → input.IPURL ≠ "" → input.DomainURL ≠ "" → input.CategoryID ≠ 0 →
      (∃ c ∈ db.liveCategories, c.ID = input.CategoryID) →
      (∀ s ∈ db.services, s.Name ≠ input.Name) →
      (addService db (some input)).2 = StatusCreated ∧
      ∃ row : Service,
        (addService db (some input)).1.services = db.services ++ [row] ∧
        row.Deleted = false ∧ row.Name = input.Name ∧ row.CategoryID = input.CategoryID ∧
        row.IPURL = input.IPURL ∧ row.DomainURL = input.DomainURL ∧
        row.Description = input.Description ∧ row.Icon = input.Icon) ∧
    ((addService db (some input)).2 = StatusBadRequest ↔
      (input.Name = "" ∨ input.IPURL = "" ∨ input.DomainURL = "" ∨ input.CategoryID = 0 ∨
        ¬ ∃ c ∈ db.liveCategories, c.ID = input.CategoryID)) ∧
    ((addService db (some input)).2 = StatusBadRequest →
      (addService db (some input)).1 = db) := by
  refine ⟨?_, ?_, ?_⟩
  · rintro h1 h2 h3 h4 ⟨c, hc, hcid⟩ hfree
    have hcat : ∃ d, db.firstCategory input.CategoryID = some d := by
      rw [← hcid]
      exact firstCategory_of_mem db c hc
    obtain ⟨d, hd⟩ := hcat
    have hn : db.firstServiceByName input.Name = none :=
      (firstServiceByName_none db input.Name).2
        (fun t ht => hfree t ((mem_liveServices db t).1 ht).1)
    have hu := any_name_false db input.Name hfree
    have heq : addService db (some input) =
        ({ db with
            services := db.services ++
              [{ ID := nextID (db.services.map (fun t => t.ID))
                 Name := input.Name
                 CategoryID := input.CategoryID
                 IPURL := input.IPURL
                 DomainURL := input.DomainURL
                 Description := input.Description
                 Icon := input.Icon
                 SortOrder :=
                   if db.maxSortOrder.getD 0 + 1 = 0 then 999 else db.maxSortOrder.getD 0 + 1
                 Deleted := false }] }, StatusCreated) := by
      simp [addService, h1, h2, h3, h4, hd, hn, DB.createService, hu]
    rw [heq]
    exact ⟨rfl, _, rfl, rfl, rfl, rfl, rfl, rfl, rfl, rfl⟩
  · by_cases hv : input.Name = "" ∨ input.IPURL = "" ∨ input.DomainURL = ""
        ∨ input.CategoryID = 0
    · have hst : (addService db (some input)).2 = StatusBadRequest := by
        simp [addService, hv]
      constructor
      · intro _
        rcases hv with h | h | h | h
        · exact Or.inl h
        · exact Or.inr (Or.inl h)
        · exact Or.inr (Or.inr (Or.inl h))
        · exact Or.inr (Or.inr (Or.inr (Or.inl h)))
      · intro _; exact hst
    · cases hc : db.firstCategory input.CategoryID with
      | none =>
        have hst : (addService db (some input)).2 = StatusBadRequest := by
          simp [addService, hv, hc]
        constructor
        · intro _
          exact Or.inr (Or.inr (Or.inr (Or.inr ((firstCategory_none_iff db _).1 hc))))
        · intro _; exact hst
      | some c =>
        have hex : ∃ c ∈ db.liveCategories, c.ID = input.CategoryID :=
          ⟨c, (firstCategory_some db _ c hc).1, (firstCategory_some db _ c hc).2⟩
        have hst : (addService db (some input)).2 ≠ StatusBadRequest := by
          cases hn : db.firstServiceByName input.Name with
          | some t => simp [addService, hv, hc, hn]
          | none =>
            by_cases hu : db.services.any (fun t => t.Name == input.Name) = true
            · simp [addService, hv, hc, hn, DB.createService, hu]
            · simp [addService, hv, hc, hn, DB.createService, hu]
        constructor
        · intro h; exact absurd h hst
        · intro h
          rcases h with h | h | h | h | h
          · exact absurd (Or.inl h) hv
          · exact absurd (Or.inr (Or.inl h)) hv
          · exact absurd (Or.inr (Or.inr (Or.inl h))) hv
          · exact absurd (Or.inr (Or.inr (Or.inr h))) hv
          · exact absurd hex h
  · intro hst
    rcases addService_cases db (some input) with ⟨h1, _⟩ | ⟨_, _, _, _, _, _, _, _, heq⟩
    · exact h1
    · rw [heq] at hst
      simp at hst

theorem C11_witness :
    ((addService seedDB (some inputA)).2 = StatusCreated ∧
      ∃ row : Service,
        (addService seedDB (some inputA)).1.services = seedDB.services ++ [row] ∧
        row.Deleted = false ∧ row.Name = inputA.Name ∧ row.CategoryID = inputA.CategoryID ∧
        row.IPURL = inputA.IPURL ∧ row.DomainURL = inputA.DomainURL ∧
        row.Description = inputA.Description ∧ row.Icon = inputA.Icon) ∧
    (addService seedDB (some inputUnknownCategory)).2 = StatusBadRequest :=
  ⟨(C11_addService_required_fields seedDB inputA).1
      (by decide) (by decide) (by decide) (by decide)
      ⟨{ ID := 1, Name := "Default", Deleted := false }, by decide, rfl⟩
      (by decide),
   (C11_addService_required_fields seedDB inputUnknownCategory).2.1.2
      (Or.inr (Or.inr (Or.inr (Or.inr (by decide)))))⟩

/-- C11 as stated fails: with `name` and `domain_url` filled in, an existing
category and an unused name, a request whose `ip_url` is empty is answered 400
and nothing is written. -/
theorem C11_counterexample :
    inputWithoutIP.Name ≠ "" ∧ inputWithoutIP.DomainURL ≠ "" ∧
    (∃ c ∈ seedDB.liveCategories, c.ID = inputWithoutIP.CategoryID) ∧
    (∀ s ∈ seedDB.services, s.Name ≠ inputWithoutIP.Name) ∧
    addService seedDB (some inputWithoutIP) = (seedDB, StatusBadRequest) := by
  decide

/-! ## Partial update -/

/-- C12. For every store, visible service `s` and update input on which
`updateService` succeeds (200): the row of `s` is replaced by a row whose `name`,
`ip_url`, `domain_url`, `description` and `icon` are the input value when that
value is non-empty and the stored value otherwise, whose `category_id` is the
input value when it is non-zero and the stored value otherwise, and whose `ID`,
`sort_order` and visibility are those of `s`; every other service row, every
category and every credential is as before. -/
theorem C12_updateService_partial_update (db : DB) (hwf : db.WF) (s : Service)
    (hs : s ∈ db.liveServices) (input : ServiceInput)
    (hok : (updateService db s.ID (some input)).2 = StatusOK) :
    ∃ s' : Service,
      (updateService db s.ID (some input)).1.services =
        db.services.map (fun t => if t = s then s' else t) ∧
      s'.Name = (if input.Name = "" then s.Name else input.Name) ∧
      s'.IPURL = (if input.IPURL = "" then s.IPURL else input.IPURL) ∧
      s'.DomainURL = (if input.DomainURL = "" then s.DomainURL else input.DomainURL) ∧
      s'.Description =
        (if input.Description = "" then s.Description else input.Description) ∧
      s'.Icon = (if input.Icon = "" then s.Icon else input.Icon) ∧
      s'.CategoryID = (if input.CategoryID = 0 then s.CategoryID else input.CategoryID) ∧
      s'.ID = s.ID ∧ s'.SortOrder = s.SortOrder ∧ s'.Deleted = s.Deleted ∧
      (updateService db s.ID (some input)).1.categories = db.categories ∧
      (updateService db s.ID (some input)).1.auths = db.auths := by
  rcases updateService_cases db s.ID (some input) with
    ⟨_, h2, _⟩ | ⟨service, input', hf, hb, _, _, heq⟩
  · exact absurd hok h2
  · have hsv : service = s := by
      have := firstService_eq_of_mem db hwf s hs
      rw [this] at hf
      exact (Option.some.inj hf).symm
    have hin : input' = input := (Option.some.inj hb).symm
    subst hsv hin
    have hsmem := (mem_liveServices db service).1 hs
    rw [heq]
    refine ⟨mergedService service input', ?_, rfl, rfl, rfl, rfl, rfl, rfl, rfl, rfl, rfl,
      rfl, rfl⟩
    apply List.map_congr_left
    intro t ht
    by_cases hts : t = service
    · rw [if_pos hts, if_pos ⟨by rw [hts], by rw [hts]; exact hsmem.2⟩]
    · have hne : ¬ (t.ID = service.ID ∧ t.Deleted = false) :=
        fun h => hts (List.inj_on_of_nodup_map hwf.1 ht hsmem.1 h.1)
      rw [if_neg hts, if_neg hne]

theorem C12_witness :
    (updateService abcDB 2 (some patchInput)).1.liveServices.map
      (fun t => (t.ID, t.Name, t.DomainURL, t.Description, t.SortOrder)) =
      [(1, "A", "http://nas.example", "", 1), (2, "B", "http://b.example", "backup", 2),
       (3, "C", "http://nas.example", "", 3)] ∧
    ∃ s' : Service,
      (updateService abcDB rowB.ID (some patchInput)).1.services =
        abcDB.services.map (fun t => if t = rowB then s' else t) ∧
      s'.Name = (if patchInput.Name = "" then rowB.Name else patchInput.Name) ∧
      s'.IPURL = (if patchInput.IPURL = "" then rowB.IPURL else patchInput.IPURL) ∧
      s'.DomainURL =
        (if patchInput.DomainURL = "" then rowB.DomainURL else patchInput.DomainURL) ∧
      s'.Description =
        (if patchInput.Description = "" then rowB.Description else patchInput.Description) ∧
      s'.Icon = (if patchInput.Icon = "" then rowB.Icon else patchInput.Icon) ∧
      s'.CategoryID =
        (if patchInput.CategoryID = 0 then rowB.CategoryID else patchInput.CategoryID) ∧
      s'.ID = rowB.ID ∧ s'.SortOrder = rowB.SortOrder ∧ s'.Deleted = rowB.Deleted ∧
      (updateService abcDB rowB.ID (some patchInput)).1.categories = abcDB.categories ∧
      (updateService abcDB rowB.ID (some patchInput)).1.auths = abcDB.auths :=
  ⟨by decide,
   C12_updateService_partial_update abcDB (by decide) rowB (by decide) patchInput
     (by decide)⟩

/-! ## Login -/

theorem adminLogin_eq (bcrypt : Bcrypt) (st : State) (sid : Nat) (auth : Auth)
    (password : String) (hauth : st.db.firstAuth = some auth) (hne : password ≠ "") :
    adminLogin bcrypt st sid (some { Password := password }) =
      if bcrypt.CompareHashAndPassword auth.PasswordHash password = false then
        (st, StatusUnauthorized)
      else ({ st with sessions := setAuthenticated st.sessions sid true }, StatusOK) := by
  simp [adminLogin, hne, hauth]

theorem authMiddleware_set_true (sessions : Sessions) (sid : Nat) :
    authMiddleware (setAuthenticated sessions sid true) sid = none := by
  simp [authMiddleware, setAuthenticated]

theorem authMiddleware_set_false (sessions : Sessions) (sid : Nat) :
    authMiddleware (setAuthenticated sessions sid false) sid = some StatusForbidden := by
  simp [authMiddleware, setAuthenticated]

theorem authMiddleware_of_ne (sessions : Sessions) (sid : Nat) (h : sessions sid ≠ some true) :
    authMiddleware sessions sid = some StatusForbidden := by
  simp [authMiddleware, h]

/-- C13. For every stored credential and every non-empty candidate password:
`adminLogin` answers 200 exactly when the candidate verifies against the stored
hash, and then the session flag of the caller is set to authenticated and
nothing else changes; otherwise it answers 401 and the state, the session flag
included, is as before.  Hence, from an anonymous session, two wrong passwords
followed by the right one are answered 401, 401, 200, the admin gate rejects the
session after the first two calls and lets it pass after the third. -/
theorem C13_adminLogin_verifies_password (bcrypt : Bcrypt) (st : State) (sid : Nat)
    (auth : Auth) (hauth : st.db.firstAuth = some auth) :
    (∀ password : String, password ≠ "" →
      ((adminLogin bcrypt st sid (some { Password := password })).2 = StatusOK ↔
        bcrypt.CompareHashAndPassword auth.PasswordHash password = true) ∧
      (bcrypt.CompareHashAndPassword auth.PasswordHash password = true →
        adminLogin bcrypt st sid (some { Password := password }) =
          ({ st with sessions := setAuthenticated st.sessions sid true }, StatusOK) ∧
        (setAuthenticated st.sessions sid true) sid = some true) ∧
      (bcrypt.CompareHashAndPassword auth.PasswordHash password = false →
        adminLogin bcrypt st sid (some { Password := password }) =
          (st, StatusUnauthorized))) ∧
    (∀ wrong1 wrong2 right : String, wrong1 ≠ "" → wrong2 ≠ "" → right ≠ "" →
      bcrypt.CompareHashAndPassword auth.PasswordHash wrong1 = false →
      bcrypt.CompareHashAndPassword auth.PasswordHash wrong2 = false →
      bcrypt.CompareHashAndPassword auth.PasswordHash right = true →
      st.sessions sid ≠ some true →
      (adminLogin bcrypt st sid (some { Password := wrong1 })).2 = StatusUnauthorized ∧
      authMiddleware (adminLogin bcrypt st sid (some { Password := wrong1 })).1.sessions sid
        = some StatusForbidden ∧
      (adminLogin bcrypt (adminLogin bcrypt st sid (some { Password := wrong1 })).1 sid
        (some { Password := wrong2 })).2 = StatusUnauthorized ∧
      authMiddleware
        (adminLogin bcrypt (adminLogin bcrypt st sid (some { Password := wrong1 })).1 sid
          (some { Password := wrong2 })).1.sessions sid = some StatusForbidden ∧
      (adminLogin bcrypt
        (adminLogin bcrypt (adminLogin bcrypt st sid (some { Password := wrong1 })).1 sid
          (some { Password := wrong2 })).1 sid (some { Password := right })).2 = StatusOK ∧
      authMiddleware
        (adminLogin bcrypt
          (adminLogin bcrypt (adminLogin bcrypt st sid (some { Password := wrong1 })).1 sid
            (some { Password := wrong2 })).1 sid (some { Password := right })).1.sessions sid
        = none) := by
  constructor
  · intro password hne
    rw [adminLogin_eq bcrypt st sid auth password hauth hne]
    cases hc : bcrypt.CompareHashAndPassword auth.PasswordHash password
    · simp
    · simp [setAuthenticated]
  · intro wrong1 wrong2 right h1 h2 h3 hw1 hw2 hr hanon
    have e1 : adminLogin bcrypt st sid (some { Password := wrong1 }) =
        (st, StatusUnauthorized) := by
      rw [adminLogin_eq bcrypt st sid auth wrong1 hauth h1, hw1]; rfl
    have e2 : adminLogin bcrypt st sid (some { Password := wrong2 }) =
        (st, StatusUnauthorized) := by
      rw [adminLogin_eq bcrypt st sid auth wrong2 hauth h2, hw2]; rfl
    have e3 : adminLogin bcrypt st sid (some { Password := right }) =
        ({ st with sessions := setAuthenticated st.sessions sid true }, StatusOK) := by
      rw [adminLogin_eq bcrypt st sid auth right hauth h3, hr]; rfl
    rw [e1]
    simp only
    rw [e2]
    simp only
    rw [e3]
    exact ⟨trivial, authMiddleware_of_ne _ _ hanon, trivial, authMiddleware_of_ne _ _ hanon,
      rfl, authMiddleware_set_true _ _⟩

theorem C13_witness :
    (adminLogin markerBcrypt { db := bootDB, sessions := noSessions } 5
        (some { Password := "guess" })).2 = StatusUnauthorized ∧
    authMiddleware
      (adminLogin markerBcrypt
        (adminLogin markerBcrypt
          (adminLogin markerBcrypt { db := bootDB, sessions := noSessions } 5
            (some { Password := "guess" })).1 5
          (some { Password := "12345" })).1 5 (some { Password := "admin" })).1.sessions 5
      = none :=
  ⟨((C13_adminLogin_verifies_password markerBcrypt { db := bootDB, sessions := noSessions } 5
      { ID := 1, PasswordHash := "$2a$10$admin", Deleted := false } (by decide)).2
      "guess" "12345" "admin" (by decide) (by decide) (by decide) (by decide) (by decide)
      (by decide) (by decide)).1,
   ((C13_adminLogin_verifies_password markerBcrypt { db := bootDB, sessions := noSessions } 5
      { ID := 1, PasswordHash := "$2a$10$admin", Deleted := false } (by decide)).2
      "guess" "12345" "admin" (by decide) (by decide) (by decide) (by decide) (by decide)
      (by decide) (by decide)).2.2.2.2.2⟩

/-! ## Password change -/

/-- Closed form of `changePassword` when both fields are filled in and a
credential is stored: policy first, then the old password, then the new hash. -/
theorem changePassword_eq (bcrypt : Bcrypt) (st : State) (sid : Nat) (auth : Auth)
    (old new : String) (hauth : st.db.firstAuth = some auth) (hold : old ≠ "")
    (hnew : new ≠ "") :
    changePassword bcrypt st sid (some { OldPassword := old, NewPassword := new }) =
      if ¬ PolicyOK new then (st, StatusBadRequest)
      else if bcrypt.CompareHashAndPassword auth.PasswordHash old = false then
        (st, StatusUnauthorized)
      else
        match bcrypt.GenerateFromPassword new with
        | none => (st, StatusInternalServerError)
        | some newPasswordHash =>
          ({ db := st.db.saveAuth { auth with PasswordHash := newPasswordHash }
             sessions := setAuthenticated st.sessions sid false }, StatusOK) := by
  unfold changePassword PolicyOK
  by_cases h1 : len new < 8
  · have : ¬ (8 ≤ len new) := by omega
    simp [hold, hnew, h1, this]
  · have h1' : 8 ≤ len new := by omega
    by_cases h2 : hasUpperCase new = true
    · by_cases h3 : hasDigit new = true
      · simp [hold, hnew, h1, h1', h2, h3, hauth]
      · have h3' : hasDigit new = false := by simpa using h3
        simp [hold, hnew, h1, h2, h3']
    · have h2' : hasUpperCase new = false := by simpa using h2
      simp [hold, hnew, h1, h2']

/-- What the policy check of `changePassword` decides, given a stored credential,
an old password that verifies and a new password that bcrypt can hash. -/
theorem changePassword_policy (bcrypt : Bcrypt) (st : State) (sid : Nat) (auth : Auth)
    (old new hash : String) (hauth : st.db.firstAuth = some auth) (hold : old ≠ "")
    (hnew : new ≠ "") (hver : bcrypt.CompareHashAndPassword auth.PasswordHash old = true)
    (hgen : bcrypt.GenerateFromPassword new = some hash) :
    ((changePassword bcrypt st sid (some { OldPassword := old, NewPassword := new })).2
        = StatusOK ↔ PolicyOK new) ∧
    (¬ PolicyOK new →
      changePassword bcrypt st sid (some { OldPassword := old, NewPassword := new })
        = (st, StatusBadRequest)) ∧
    (PolicyOK new →
      changePassword bcrypt st sid (some { OldPassword := old, NewPassword := new })
        = ({ db := st.db.saveAuth { auth with PasswordHash := hash }
             sessions := setAuthenticated st.sessions sid false }, StatusOK)) := by
  rw [changePassword_eq bcrypt st sid auth old new hauth hold hnew]
  by_cases hp : PolicyOK new
  · simp [hp, hver, hgen]
  · simp [hp]

/-- C14, the code at the failing input.  With a stored credential, an old
password that verifies and a hash for the new password, `changePassword` accepts
the new password `Abcde1é`, which has seven characters: `len` counts the eight
bytes of its UTF-8 encoding. -/
theorem C14_seven_character_password_accepted (bcrypt : Bcrypt) (st : State) (sid : Nat)
    (auth : Auth) (old hash : String) (hauth : st.db.firstAuth = some auth)
    (hold : old ≠ "") (hver : bcrypt.CompareHashAndPassword auth.PasswordHash old = true)
    (hgen : bcrypt.GenerateFromPassword sevenCharacters = some hash) :
    sevenCharacters.length = 7 ∧ len sevenCharacters = 8 ∧
    changePassword bcrypt st sid
        (some { OldPassword := old, NewPassword := sevenCharacters })
      = ({ db := st.db.saveAuth { auth with PasswordHash := hash }
           sessions := setAuthenticated st.sessions sid false }, StatusOK) := by
  refine ⟨by decide, by decide, ?_⟩
  exact (changePassword_policy bcrypt st sid auth old sevenCharacters hash hauth hold
    (by decide) hver hgen).2.2 (by decide)

theorem C14_witness :
    (changePassword markerBcrypt twoAdminsState 1
      (some { OldPassword := "admin", NewPassword := sevenCharacters })).1.db.auths.map
        (fun a => a.PasswordHash) = ["$2a$10$Abcde1é"] ∧
    (sevenCharacters.length = 7 ∧ len sevenCharacters = 8 ∧
    changePassword markerBcrypt twoAdminsState 1
        (some { OldPassword := "admin", NewPassword := sevenCharacters })
      = ({ db := twoAdminsState.db.saveAuth
             { ID := 1, PasswordHash := "$2a$10$Abcde1é", Deleted := false }
           sessions := setAuthenticated twoAdminsState.sessions 1 false }, StatusOK)) :=
  ⟨by decide,
   C14_seven_character_password_accepted markerBcrypt twoAdminsState 1
     { ID := 1, PasswordHash := "$2a$10$admin", Deleted := false } "admin" "$2a$10$Abcde1é"
     (by decide) (by decide) (by decide) (by decide)⟩

/-- C15, amended. For every stored credential and every pair of non-empty strings
`old`, `new` such that `old` does not verify against the stored hash:
`changePassword` answers 401 when `new` meets the password policy and 400 when it
does not, because the policy is checked before the old password; in both cases
the state (stored hash and session flags) is as before. -/
theorem C15_wrong_old_password_after_policy (bcrypt : Bcrypt) (st : State) (sid : Nat)
    (auth : Auth) (old new : String) (hauth : st.db.firstAuth = some auth)
    (hold : old ≠ "") (hnew : new ≠ "")
    (hwrong : bcrypt.CompareHashAndPassword auth.PasswordHash old = false) :
    ((8 ≤ len new ∧ hasUpperCase new = true ∧ hasDigit new = true) →
      changePassword bcrypt st sid (some { OldPassword := old, NewPassword := new })
        = (st, StatusUnauthorized)) ∧
    (¬ (8 ≤ len new ∧ hasUpperCase new = true ∧ hasDigit new = true) →
      changePassword bcrypt st sid (some { OldPassword := old, NewPassword := new })
        = (st, StatusBadRequest)) := by
  rw [changePassword_eq bcrypt st sid auth old new hauth hold hnew]
  constructor
  · intro hp
    have hp' : PolicyOK new := hp
    simp [hp', hwrong]
  · intro hp
    have hp' : ¬ PolicyOK new := hp
    simp [hp']

theorem C15_witness :
    changePassword markerBcrypt twoAdminsState 1
        (some { OldPassword := "guess", NewPassword := "Abcdefg1" })
      = (twoAdminsState, StatusUnauthorized) ∧
    changePassword markerBcrypt twoAdminsState 1
        (some { OldPassword := "guess", NewPassword := "abcdefg1" })
      = (twoAdminsState, StatusBadRequest) :=
  ⟨(C15_wrong_old_password_after_policy markerBcrypt twoAdminsState 1
      { ID := 1, PasswordHash := "$2a$10$admin", Deleted := false } "guess" "Abcdefg1"
      (by decide) (by decide) (by decide) (by decide)).1 (by decide),
   (C15_wrong_old_password_after_policy markerBcrypt twoAdminsState 1
      { ID := 1, PasswordHash := "$2a$10$admin", Deleted := false } "guess" "abcdefg1"
      (by decide) (by decide) (by decide) (by decide)).2 (by decide)⟩

/-- C15 as stated fails: the old password `guess` does not verify, both strings
are non-empty, and `changePassword` answers 400, not 401, because the new password
`short` is rejected by the policy check that comes first. -/
theorem C15_counterexample :
    twoAdminsState.db.firstAuth =
      some { ID := 1, PasswordHash := "$2a$10$admin", Deleted := false } ∧
    markerBcrypt.CompareHashAndPassword "$2a$10$admin" "guess" = false ∧
    (changePassword markerBcrypt twoAdminsState 1
      (some { OldPassword := "guess", NewPassword := "short" })).2 = StatusBadRequest ∧
    (changePassword markerBcrypt twoAdminsState 1
      (some { OldPassword := "guess", NewPassword := "short" })).2 ≠ StatusUnauthorized := by
  decide

/-- The only way `changePassword` answers 200. -/
theorem changePassword_ok_inv (bcrypt : Bcrypt) (st : State) (sid : Nat)
    (body : Option PasswordInput) (hok : (changePassword bcrypt st sid body).2 = StatusOK) :
    ∃ (input : PasswordInput) (auth : Auth) (hash : String),
      body = some input ∧ input.OldPassword ≠ "" ∧ input.NewPassword ≠ "" ∧
      PolicyOK input.NewPassword ∧ st.db.firstAuth = some auth ∧
      bcrypt.CompareHashAndPassword auth.PasswordHash input.OldPassword = true ∧
      bcrypt.GenerateFromPassword input.NewPassword = some hash ∧
      changePassword bcrypt st sid body =
        ({ db := st.db.saveAuth { auth with PasswordHash := hash }
           sessions := setAuthenticated st.sessions sid false }, StatusOK) := by
  cases body with
  | none => simp [changePassword] at hok
  | some input =>
    obtain ⟨old, new⟩ := input
    by_cases hold : old = ""
    · simp [changePassword, hold] at hok
    · by_cases hnew : new = ""
      · simp [changePassword, hnew] at hok
      · cases hauth : st.db.firstAuth with
        | none =>
          unfold changePassword at hok
          simp only [hauth] at hok
          split_ifs at hok <;> simp at hok
        | some auth =>
          rw [changePassword_eq bcrypt st sid auth old new hauth hold hnew] at hok ⊢
          by_cases hp : PolicyOK new
          · cases hc : bcrypt.CompareHashAndPassword auth.PasswordHash old with
            | false => simp [hp, hc] at hok
            | true =>
              cases hg : bcrypt.GenerateFromPassword new with
              | none => simp [hp, hc, hg] at hok
              | some hash =>
                refine ⟨_, auth, hash, rfl, hold, hnew, hp, rfl, hc, hg, ?_⟩
                simp [hp]
          · simp [hp] at hok

theorem firstAuth_single (db : DB) (a : Auth) (hone : db.auths = [a])
    (hlive : a.Deleted = false) : db.firstAuth = some a := by
  simp [DB.firstAuth, DB.liveAuths, hone, hlive, firstByID]

theorem saveAuth_single (db : DB) (a b : Auth) (hone : db.auths = [a])
    (hlive : a.Deleted = false) (hid : b.ID = a.ID) : (db.saveAuth b).auths = [b] := by
  simp [DB.saveAuth, hone, hlive, hid]

/-- C16. Assume that a bcrypt hash verifies exactly the password it was generated
from (and that a generated hash is not the empty string).  For every state whose
credential table holds exactly one record, after a successful
`changePassword (old, new)` the table still holds exactly one record, the same
row with a new, non-empty hash; a following `adminLogin` with `new` answers 200,
and a following `adminLogin` with `old` answers 401 whenever `old` differs from
`new`. -/
theorem C16_changePassword_rotates_credential (bcrypt : Bcrypt) (st : State) (sid : Nat)
    (a : Auth) (old new : String)
    (hexact : ∀ pw h, bcrypt.GenerateFromPassword pw = some h →
      ∀ pw', bcrypt.CompareHashAndPassword h pw' = true ↔ pw' = pw)
    (hhash : ∀ pw h, bcrypt.GenerateFromPassword pw = some h → h ≠ "")
    (hone : st.db.auths = [a]) (hlive : a.Deleted = false)
    (hok : (changePassword bcrypt st sid
      (some { OldPassword := old, NewPassword := new })).2 = StatusOK) :
    ∃ hash : String, hash ≠ "" ∧
      (changePassword bcrypt st sid
        (some { OldPassword := old, NewPassword := new })).1.db.auths
          = [{ a with PasswordHash := hash }] ∧
      (∀ caller : Nat,
        (adminLogin bcrypt
          (changePassword bcrypt st sid
            (some { OldPassword := old, NewPassword := new })).1 caller
          (some { Password := new })).2 = StatusOK) ∧
      (old ≠ new → ∀ caller : Nat,
        (adminLogin bcrypt
          (changePassword bcrypt st sid
            (some { OldPassword := old, NewPassword := new })).1 caller
          (some { Password := old })).2 = StatusUnauthorized) := by
  obtain ⟨input, auth, hash, hb, hold, hnew, _, hauth, _, hgen, heq⟩ :=
    changePassword_ok_inv bcrypt st sid _ hok
  have hin : input = { OldPassword := old, NewPassword := new } := (Option.some.inj hb).symm
  subst hin
  have ha : auth = a := by
    rw [firstAuth_single st.db a hone hlive] at hauth
    exact (Option.some.inj hauth).symm
  subst ha
  have hauths : (st.db.saveAuth { auth with PasswordHash := hash }).auths =
      [{ auth with PasswordHash := hash }] :=
    saveAuth_single st.db auth _ hone hlive rfl
  have hfirst : (st.db.saveAuth { auth with PasswordHash := hash }).firstAuth =
      some { auth with PasswordHash := hash } :=
    firstAuth_single _ _ hauths hlive
  rw [heq]
  refine ⟨hash, hhash new hash hgen, hauths, ?_, ?_⟩
  · intro caller
    rw [adminLogin_eq bcrypt _ caller _ new hfirst hnew]
    have : bcrypt.CompareHashAndPassword hash new = true := (hexact new hash hgen new).2 rfl
    simp [this]
  · intro hne caller
    rw [adminLogin_eq bcrypt _ caller _ old hfirst hold]
    have : bcrypt.CompareHashAndPassword hash old = false := by
      cases hc : bcrypt.CompareHashAndPassword hash old with
      | false => rfl
      | true => exact absurd ((hexact new hash hgen old).1 hc) hne
    simp [this]

theorem markerBcrypt_exact (pw h : String)
    (hgen : markerBcrypt.GenerateFromPassword pw = some h) (pw' : String) :
    markerBcrypt.CompareHashAndPassword h pw' = true ↔ pw' = pw := by
  simp only [markerBcrypt, Option.some.injEq] at hgen
  subst hgen
  simp only [markerBcrypt, beq_iff_eq]
  constructor
  · intro h
    have := congrArg String.data h
    simp only [String.data_append, List.append_cancel_left_eq] at this
    exact (String.ext this).symm
  · intro h
    rw [h]

theorem markerBcrypt_nonempty (pw h : String)
    (hgen : markerBcrypt.GenerateFromPassword pw = some h) : h ≠ "" := by
  simp only [markerBcrypt, Option.some.injEq] at hgen
  subst hgen
  intro h
  have := congrArg String.length h
  simp only [String.length_append] at this
  have hlen : ("$2a$10$" : String).length = 7 := by decide
  rw [hlen] at this
  have h0 : ("" : String).length = 0 := by decide
  omega

theorem C16_witness :
    (changePassword markerBcrypt twoAdminsState 1
      (some { OldPassword := "admin", NewPassword := "Abcdefg1" })).1.db.auths
        = [{ ID := 1, PasswordHash := "$2a$10$Abcdefg1", Deleted := false }] ∧
    ∃ hash : String, hash ≠ "" ∧
      (changePassword markerBcrypt twoAdminsState 1
        (some { OldPassword := "admin", NewPassword := "Abcdefg1" })).1.db.auths
          = [{ ID := 1, PasswordHash := hash, Deleted := false }] ∧
      (∀ caller : Nat,
        (adminLogin markerBcrypt
          (changePassword markerBcrypt twoAdminsState 1
            (some { OldPassword := "admin", NewPassword := "Abcdefg1" })).1 caller
          (some { Password := "Abcdefg1" })).2 = StatusOK) ∧
      ("admin" ≠ "Abcdefg1" → ∀ caller : Nat,
        (adminLogin markerBcrypt
          (changePassword markerBcrypt twoAdminsState 1
            (some { OldPassword := "admin", NewPassword := "Abcdefg1" })).1 caller
          (some { Password := "admin" })).2 = StatusUnauthorized) :=
  ⟨by decide,
   C16_changePassword_rotates_credential markerBcrypt twoAdminsState 1
     { ID := 1, PasswordHash := "$2a$10$admin", Deleted := false } "admin" "Abcdefg1"
     markerBcrypt_exact markerBcrypt_nonempty (by decide) (by decide) (by decide)⟩

/-! ## Sessions after a password change -/

theorem adminLogin_ok_sessions (bcrypt : Bcrypt) (st : State) (sid : Nat)
    (login : Option LoginInput) (h : (adminLogin bcrypt st sid login).2 = StatusOK) :
    (adminLogin bcrypt st sid login).1.sessions = setAuthenticated st.sessions sid true := by
  cases login with
  | none => simp [adminLogin] at h
  | some loginInput =>
    by_cases hp : loginInput.Password = ""
    · simp [adminLogin, hp] at h
    · cases hfa : st.db.firstAuth with
      | none => simp [adminLogin, hp, hfa] at h
      | some auth =>
        cases hc : bcrypt.CompareHashAndPassword auth.PasswordHash loginInput.Password with
        | false => simp [adminLogin, hp, hfa, hc] at h
        | true => simp [adminLogin, hp, hfa, hc]

/-- C17, amended. For every state, after a successful `changePassword` the session
of the caller no longer passes the admin gate (`authMiddleware` answers 403), and
it passes again after that session logs in successfully; the flag of every other
session is exactly what it was before the call, so a session that was
authenticated stays authenticated. -/
theorem C17_changePassword_resets_caller_session (bcrypt : Bcrypt) (st : State) (sid : Nat)
    (body : Option PasswordInput)
    (hok : (changePassword bcrypt st sid body).2 = StatusOK) :
    authMiddleware (changePassword bcrypt st sid body).1.sessions sid
      = some StatusForbidden ∧
    (∀ other : Nat, other ≠ sid →
      (changePassword bcrypt st sid body).1.sessions other = st.sessions other ∧
      authMiddleware (changePassword bcrypt st sid body).1.sessions other
        = authMiddleware st.sessions other) ∧
    (∀ login : Option LoginInput,
      (adminLogin bcrypt (changePassword bcrypt st sid body).1 sid login).2 = StatusOK →
      authMiddleware
        (adminLogin bcrypt (changePassword bcrypt st sid body).1 sid login).1.sessions sid
        = none) := by
  obtain ⟨input, auth, hash, _, _, _, _, _, _, _, heq⟩ :=
    changePassword_ok_inv bcrypt st sid body hok
  rw [heq]
  refine ⟨authMiddleware_set_false _ _, ?_, ?_⟩
  · intro other hne
    simp [authMiddleware, setAuthenticated, hne]
  · intro login hlogin
    rw [adminLogin_ok_sessions bcrypt _ sid login hlogin]
    exact authMiddleware_set_true _ _

theorem C17_witness :
    authMiddleware
      (changePassword markerBcrypt twoAdminsState 1
        (some { OldPassword := "admin", NewPassword := "Abcdefg1" })).1.sessions 1
      = some StatusForbidden ∧
    (∀ other : Nat, other ≠ 1 →
      (changePassword markerBcrypt twoAdminsState 1
        (some { OldPassword := "admin", NewPassword := "Abcdefg1" })).1.sessions other
        = twoAdminsState.sessions other ∧
      authMiddleware
        (changePassword markerBcrypt twoAdminsState 1
          (some { OldPassword := "admin", NewPassword := "Abcdefg1" })).1.sessions other
        = authMiddleware twoAdminsState.sessions other) :=
  ⟨(C17_changePassword_resets_caller_session markerBcrypt twoAdminsState 1
      (some { OldPassword := "admin", NewPassword := "Abcdefg1" }) (by decide)).1,
   (C17_changePassword_resets_caller_session markerBcrypt twoAdminsState 1
      (some { OldPassword := "admin", NewPassword := "Abcdefg1" }) (by decide)).2.1⟩

/-- C17 as stated fails: sessions 1 and 2 are both authenticated, session 1
changes the password successfully, and session 2 still passes the admin gate. -/
theorem C17_counterexample :
    authMiddleware twoAdminsState.sessions 1 = none ∧
    authMiddleware twoAdminsState.sessions 2 = none ∧
    (changePassword markerBcrypt twoAdminsState 1
      (some { OldPassword := "admin", NewPassword := "Abcdefg1" })).2 = StatusOK ∧
    authMiddleware
      (changePassword markerBcrypt twoAdminsState 1
        (some { OldPassword := "admin", NewPassword := "Abcdefg1" })).1.sessions 2
      = none := by
  decide

/-! ## Listings -/

theorem insertionSort_sortOrder_then_ID (rows : List Service) :
    (sqliteEngine.orderBySortOrder rows).Perm rows ∧
    (sqliteEngine.orderBySortOrder rows).Pairwise
      (fun a b => a.SortOrder < b.SortOrder ∨ (a.SortOrder = b.SortOrder ∧ a.ID ≤ b.ID)) := by
  haveI : IsTotal Service
      (fun a b => a.SortOrder < b.SortOrder ∨ (a.SortOrder = b.SortOrder ∧ a.ID ≤ b.ID)) :=
    ⟨fun a b => by
      rcases lt_trichotomy a.SortOrder b.SortOrder with h | h | h
      · exact Or.inl (Or.inl h)
      · rcases le_total a.ID b.ID with hi | hi
        · exact Or.inl (Or.inr ⟨h, hi⟩)
        · exact Or.inr (Or.inr ⟨h.symm, hi⟩)
      · exact Or.inr (Or.inl h)⟩
  haveI : IsTrans Service
      (fun a b => a.SortOrder < b.SortOrder ∨ (a.SortOrder = b.SortOrder ∧ a.ID ≤ b.ID)) :=
    ⟨fun a b c h1 h2 => by
      rcases h1 with h1 | ⟨h1, h1'⟩ <;> rcases h2 with h2 | ⟨h2, h2'⟩
      · exact Or.inl (lt_trans h1 h2)
      · exact Or.inl (by omega)
      · exact Or.inl (by omega)
      · exact Or.inr ⟨by omega, le_trans h1' h2'⟩⟩
  exact ⟨List.perm_insertionSort _ _, List.sorted_insertionSort _ _⟩

theorem insertionSort_categoryID (rows : List Category) :
    (rows.insertionSort (fun a b => a.ID ≤ b.ID)).Perm rows ∧
    (rows.insertionSort (fun a b => a.ID ≤ b.ID)).Pairwise (fun a b => a.ID ≤ b.ID) := by
  haveI : IsTotal Category (fun a b => a.ID ≤ b.ID) := ⟨fun a b => le_total a.ID b.ID⟩
  haveI : IsTrans Category (fun a b => a.ID ≤ b.ID) := ⟨fun _ _ _ h1 h2 => le_trans h1 h2⟩
  exact ⟨List.perm_insertionSort _ _, List.sorted_insertionSort _ _⟩

/-- The engine behind the handlers honours `ORDER BY`. -/
theorem sqliteEngine_sound : sqliteEngine.Sound :=
  ⟨fun rows =>
    ⟨(insertionSort_sortOrder_then_ID rows).1,
     (insertionSort_sortOrder_then_ID rows).2.imp (fun h => by
       rcases h with h | ⟨h, _⟩
       · exact le_of_lt h
       · exact le_of_eq h)⟩,
   fun rows => insertionSort_categoryID rows⟩

theorem preloadCategory_eq (db : DB) (hwf : db.WF) (s : Service) (c : Category)
    (hc : c ∈ db.liveCategories) (hid : c.ID = s.CategoryID) (hpos : 0 < c.ID) :
    preloadCategory db s = c := by
  unfold preloadCategory
  have hne : ¬ (s.CategoryID = 0) := by omega
  rw [if_neg hne, ← hid, firstCategory_eq_of_mem db hwf c hc]
  rfl

/-- What the listings return on every engine that honours `ORDER BY`: every
visible service exactly once, in ascending `sort_order`, each item carrying the
fields of its service and the name of the visible category the service refers to
(primary keys are positive); and every visible category exactly once, in strictly
ascending `ID`. -/
theorem listings_of_sound_engine (e : Engine) (he : e.Sound) (db : DB)
    (hwf : db.WF) :
    (∃ rows : List Service,
      rows.Perm db.liveServices ∧ rows.Nodup ∧
      rows.Pairwise (fun a b => a.SortOrder ≤ b.SortOrder) ∧
      getServices e db = (rows.map (serviceItem db), StatusOK) ∧
      getPublicServices e db = (rows.map (publicServiceItem db), StatusOK)) ∧
    (∀ s ∈ db.liveServices, ∀ c ∈ db.liveCategories, c.ID = s.CategoryID → 0 < c.ID →
      (serviceItem db s).category = c.Name ∧ (publicServiceItem db s).category = c.Name) ∧
    (∀ s : Service,
      (serviceItem db s).id = s.ID ∧ (serviceItem db s).name = s.Name ∧
      (serviceItem db s).sort_order = s.SortOrder ∧
      (serviceItem db s).category_id = s.CategoryID ∧
      (publicServiceItem db s).name = s.Name) ∧
    (∃ rows : List Category,
      rows.Perm db.liveCategories ∧ rows.Pairwise (fun a b => a.ID < b.ID) ∧
      getCategories e db =
        (rows.map (fun c => { id := c.ID, name := c.Name }), StatusOK)) := by
  refine ⟨?_, ?_, ?_, ?_⟩
  · obtain ⟨hp, hs⟩ := he.1 db.liveServices
    exact ⟨_, hp, hp.nodup_iff.2 (nodup_liveServices db hwf), hs, rfl, rfl⟩
  · intro s _ c hc hid hpos
    have := preloadCategory_eq db hwf s c hc hid hpos
    constructor
    · show (preloadCategory db s).Name = c.Name
      rw [this]
    · show (if (preloadCategory db s).ID > 0 then (preloadCategory db s).Name else "未分类")
        = c.Name
      rw [this, if_pos hpos]
  · intro s
    exact ⟨rfl, rfl, rfl, rfl, rfl⟩
  · obtain ⟨hp, hs⟩ := he.2 db.liveCategories
    refine ⟨_, hp, ?_, rfl⟩
    have hnodup : ((e.orderByID db.liveCategories).map (fun c => c.ID)).Nodup := by
      have h1 : (db.liveCategories.map (fun c => c.ID)).Nodup :=
        List.Nodup.sublist (List.Sublist.map _ (List.filter_sublist _)) hwf.2
      exact ((hp.map (fun c => c.ID)).nodup_iff).2 h1
    have hne : (e.orderByID db.liveCategories).Pairwise (fun a b => a.ID ≠ b.ID) :=
      List.pairwise_map.1 hnodup
    exact List.Pairwise.imp₂ (fun a b h1 h2 => lt_of_le_of_ne h1 h2) hs hne

/-- C18. For every store: `getServices` and `getPublicServices` return every
visible service exactly once, in ascending `sort_order`, and services that share
a `sort_order` appear in ascending `ID`; each item carries the fields of its
service and the name of the visible category the service refers to (primary keys
are positive); `getCategories` returns every visible category exactly once, in
strictly ascending `ID`. -/
theorem C18_listings_by_sort_order_then_id (db : DB) (hwf : db.WF) :
    (∃ rows : List Service,
      rows.Perm db.liveServices ∧ rows.Nodup ∧
      rows.Pairwise (fun a b => a.SortOrder ≤ b.SortOrder) ∧
      rows.Pairwise (fun a b => a.SortOrder = b.SortOrder → a.ID < b.ID) ∧
      getServices sqliteEngine db = (rows.map (serviceItem db), StatusOK) ∧
      getPublicServices sqliteEngine db = (rows.map (publicServiceItem db), StatusOK)) ∧
    (∀ s ∈ db.liveServices, ∀ c ∈ db.liveCategories, c.ID = s.CategoryID → 0 < c.ID →
      (serviceItem db s).category = c.Name ∧ (publicServiceItem db s).category = c.Name) ∧
    (∀ s : Service,
      (serviceItem db s).id = s.ID ∧ (serviceItem db s).name = s.Name ∧
      (serviceItem db s).sort_order = s.SortOrder ∧
      (serviceItem db s).category_id = s.CategoryID ∧
      (publicServiceItem db s).name = s.Name) ∧
    (∃ rows : List Category,
      rows.Perm db.liveCategories ∧ rows.Pairwise (fun a b => a.ID < b.ID) ∧
      getCategories sqliteEngine db =
        (rows.map (fun c => { id := c.ID, name := c.Name }), StatusOK)) := by
  obtain ⟨_, hjoin, hfields, hcats⟩ := listings_of_sound_engine sqliteEngine sqliteEngine_sound db hwf
  refine ⟨?_, hjoin, hfields, hcats⟩
  obtain ⟨hp, hlex⟩ := insertionSort_sortOrder_then_ID db.liveServices
  have hnodupID : ((sqliteEngine.orderBySortOrder db.liveServices).map (fun s => s.ID)).Nodup :=
    ((hp.map (fun s => s.ID)).nodup_iff).2 (nodup_liveIDs db hwf)
  have hne : (sqliteEngine.orderBySortOrder db.liveServices).Pairwise
      (fun a b => a.ID ≠ b.ID) := List.pairwise_map.1 hnodupID
  refine ⟨_, hp, hp.nodup_iff.2 (nodup_liveServices db hwf), ?_, ?_, rfl, rfl⟩
  · exact hlex.imp (fun h => by
      rcases h with h | ⟨h, _⟩
      · exact le_of_lt h
      · exact le_of_eq h)
  · refine List.Pairwise.imp₂ (fun a b h1 h2 heq => ?_) hlex hne
    rcases h1 with h1 | ⟨_, h1⟩
    · omega
    · exact lt_of_le_of_ne h1 h2

theorem C18_witness :
    tiedDB.liveServices.map (fun s => (s.ID, s.SortOrder)) = [(1, 1), (2, 2), (3, 1)] ∧
    (getServices sqliteEngine tiedDB).1.map (fun i => (i.id, i.sort_order, i.category)) =
      [(1, 1, "Default"), (3, 1, "Default"), (2, 2, "Default")] ∧
    (getPublicServices sqliteEngine tiedDB).1.map (fun i => (i.name, i.category)) =
      [("A", "Default"), ("C", "Default"), ("B", "Default")] ∧
    (getCategories sqliteEngine twoCategoriesDB).1 =
      [{ id := 1, name := "Default" }, { id := 2, name := "Media" }] ∧
    (∃ rows : List Service,
      rows.Perm tiedDB.liveServices ∧ rows.Nodup ∧
      rows.Pairwise (fun a b => a.SortOrder ≤ b.SortOrder) ∧
      rows.Pairwise (fun a b => a.SortOrder = b.SortOrder → a.ID < b.ID) ∧
      getServices sqliteEngine tiedDB = (rows.map (serviceItem tiedDB), StatusOK) ∧
      getPublicServices sqliteEngine tiedDB
        = (rows.map (publicServiceItem tiedDB), StatusOK)) :=
  ⟨by decide, by decide, by decide, by decide,
   (C18_listings_by_sort_order_then_id tiedDB (by decide)).1⟩

/-! ## Reorder followed by a listing -/

theorem pairwise_oneTo (n : Nat) : (oneTo n).Pairwise (fun a b => a ≤ b) := by
  unfold oneTo
  refine List.Pairwise.map _ ?_ (List.pairwise_lt_range n)
  intro a b h
  omega

theorem sorted_perm_oneTo (l : List Int) (n : Nat) (hp : l.Perm (oneTo n))
    (hs : l.Pairwise (fun a b => a ≤ b)) : l = oneTo n :=
  List.eq_of_perm_of_sorted hp hs (pairwise_oneTo n)

theorem getElem_oneTo (n i : Nat) (h : i < (oneTo n).length) :
    (oneTo n)[i] = (i : Int) + 1 := by
  simp [oneTo]

/-- In a dense store the listing has the service with `sort_order = i + 1` at
0-based position `i`, whatever the engine does with ties. -/
theorem listing_sortOrder_at (e : Engine) (he : e.Sound) (db : DB) (hd : db.Dense) (i : Nat)
    (h : i < (e.orderBySortOrder db.liveServices).length) :
    ((e.orderBySortOrder db.liveServices)[i]).SortOrder = (i : Int) + 1 := by
  obtain ⟨hp, hs⟩ := he.1 db.liveServices
  have hperm : ((e.orderBySortOrder db.liveServices).map (fun s => s.SortOrder)).Perm
      (oneTo db.liveServices.length) := (hp.map _).trans hd
  have hsorted : ((e.orderBySortOrder db.liveServices).map (fun s => s.SortOrder)).Pairwise
      (fun a b => a ≤ b) := List.pairwise_map.2 hs
  have heq := sorted_perm_oneTo _ _ hperm hsorted
  have hi : i < ((e.orderBySortOrder db.liveServices).map (fun s => s.SortOrder)).length := by
    rw [List.length_map]; exact h
  have h1 : ((e.orderBySortOrder db.liveServices).map (fun s => s.SortOrder))[i]
      = ((e.orderBySortOrder db.liveServices)[i]).SortOrder := List.getElem_map _
  have h2 : ∀ (l : List Int) (hl : l = oneTo db.liveServices.length) (hil : i < l.length),
      l[i] = (i : Int) + 1 := by
    intro l hl hil
    subst hl
    exact getElem_oneTo _ _ hil
  rw [← h1]
  exact h2 _ heq hi

theorem getServices_ids (e : Engine) (db : DB) :
    (getServices e db).1.map (fun item => item.id) =
      (e.orderBySortOrder db.liveServices).map (fun s => s.ID) := by
  simp [getServices, serviceItem, List.map_map, Function.comp]

/-- C19. For every store, every engine that honours `ORDER BY`, and every id list
that is a rearrangement of the ids of all visible services (each exactly once):
`reorderServices` succeeds, the resulting `sort_order` values are exactly `1..N`,
and a following `getServices` returns the services in exactly the order of the
submitted list.  Submitting the ids in the order in which `getServices` returns
them leaves a dense store unchanged. -/
theorem C19_reorder_then_list_round_trip (e : Engine) (he : e.Sound) (db : DB)
    (hwf : db.WF) (ids : List Nat)
    (hperm : ids.Perm (db.liveServices.map (fun s => s.ID))) :
    (reorderServices db (some ids)).2 = StatusOK ∧
    (reorderServices db (some ids)).1.Dense ∧
    (getServices e (reorderServices db (some ids)).1).1.map (fun item => item.id) = ids ∧
    (db.Dense →
      reorderServices db (some ((getServices e db).1.map (fun item => item.id)))
        = (db, StatusOK)) := by
  have hn : ids.Nodup := hperm.nodup_iff.2 (nodup_liveIDs db hwf)
  have hdense := reorderServices_dense_of_perm db ids hwf hperm
  refine ⟨by rw [reorderServices_eq], hdense, ?_, ?_⟩
  · rw [getServices_ids]
    obtain ⟨hp, _⟩ := he.1 (reorderServices db (some ids)).1.liveServices
    have hlive : (reorderServices db (some ids)).1.liveServices =
        db.liveServices.map (fun t => reorderRow t 0 ids) := by
      rw [reorderServices_eq]
      exact liveServices_reorder db ids
    have hlen : ((e.orderBySortOrder (reorderServices db (some ids)).1.liveServices).map
        (fun s => s.ID)).length = ids.length := by
      rw [List.length_map, hp.length_eq, hlive, List.length_map, hperm.length_eq,
        List.length_map]
    apply List.ext_getElem hlen
    intro i h1 h2
    rw [List.getElem_map]
    have hil : i < (e.orderBySortOrder (reorderServices db (some ids)).1.liveServices).length := by
      rw [List.length_map] at h1; exact h1
    have hso := listing_sortOrder_at e he _ hdense i hil
    have hmem : (e.orderBySortOrder (reorderServices db (some ids)).1.liveServices)[i]
        ∈ db.liveServices.map (fun t => reorderRow t 0 ids) := by
      rw [← hlive]
      exact hp.mem_iff.1 (List.getElem_mem hil)
    obtain ⟨t, ht, hrow⟩ := List.mem_map.1 hmem
    have htid : t.ID ∈ ids := hperm.mem_iff.2 (List.mem_map.2 ⟨t, ht, rfl⟩)
    obtain ⟨j, hj⟩ := List.mem_iff_getElem?.1 htid
    have hat := reorderRow_at t 0 ids j hn hj ((mem_liveServices db t).1 ht).2
    rw [← hrow] at hso ⊢
    rw [hat] at hso
    have hji : j = i := by omega
    rw [reorderRow_ID]
    rw [hji, List.getElem?_eq_getElem h2] at hj
    exact (Option.some.inj hj).symm
  · intro hd
    rw [getServices_ids, reorderServices_eq]
    obtain ⟨hp, _⟩ := he.1 db.liveServices
    have hn0 : ((e.orderBySortOrder db.liveServices).map (fun s => s.ID)).Nodup :=
      ((hp.map (fun s => s.ID)).nodup_iff).2 (nodup_liveIDs db hwf)
    have hrows : db.services.map
        (fun t => reorderRow t 0 ((e.orderBySortOrder db.liveServices).map (fun s => s.ID)))
        = db.services := by
      conv_rhs => rw [← List.map_id db.services]
      apply List.map_congr_left
      intro t ht
      by_cases hdel : t.Deleted = true
      · rw [reorderRow_skip t 0 _ (Or.inr hdel)]
        rfl
      · have hdel' : t.Deleted = false := by simpa using hdel
        have htl : t ∈ db.liveServices := (mem_liveServices db t).2 ⟨ht, hdel'⟩
        have htr : t ∈ e.orderBySortOrder db.liveServices := hp.mem_iff.2 htl
        obtain ⟨i, hi, hget⟩ := List.getElem_of_mem htr
        have hso := listing_sortOrder_at e he db hd i hi
        have hidx : ((e.orderBySortOrder db.liveServices).map (fun s => s.ID))[i]? =
            some t.ID := by
          rw [List.getElem?_map, List.getElem?_eq_getElem hi, hget]
          rfl
        have hat := reorderRow_at t 0 _ i hn0 hidx hdel'
        rw [hget] at hso
        rw [reorderRow_frame, hat]
        have : ((0 : Nat) : Int) + (i : Int) + 1 = t.SortOrder := by rw [hso]; omega
        rw [this]
        rfl
    rw [hrows]

theorem C19_witness :
    (getServices sqliteEngine (reorderServices abcDB (some [3, 1, 2])).1).1.map
      (fun item => (item.id, item.name, item.sort_order)) =
      [(3, "C", 1), (1, "A", 2), (2, "B", 3)] ∧
    ((reorderServices abcDB (some [3, 1, 2])).2 = StatusOK ∧
    (reorderServices abcDB (some [3, 1, 2])).1.Dense ∧
    (getServices sqliteEngine (reorderServices abcDB (some [3, 1, 2])).1).1.map
      (fun item => item.id) = [3, 1, 2] ∧
    (abcDB.Dense →
      reorderServices abcDB
        (some ((getServices sqliteEngine abcDB).1.map (fun item => item.id)))
        = (abcDB, StatusOK))) :=
  ⟨by decide,
   C19_reorder_then_list_round_trip sqliteEngine sqliteEngine_sound abcDB
     (by decide) [3, 1, 2] (by decide)⟩

end NasNav
